import Mathlib

/-!
# Verification development for the pljs value-marshaling and cache subsystem

This file is a shallow embedding, in Lean 4, of the parts of the pljs
extension (a PostgreSQL procedural language bridging to the quickjs
Javascript engine) that the verified properties talk about:

* `src/types.c` — type-descriptor resolution (`pljs_type_fill`), the
  bidirectional value marshaler (`pljs_datum_to_jsvalue`,
  `pljs_jsvalue_to_datum` and their array / record / tuple helpers), and the
  date/timestamp epoch conversions;
* `src/cache.c` — the per-user execution-context cache and the nested
  per-function compiled-function cache;
* `src/functions.c` — the `pljs.return_next` emit-row primitive of
  set-returning functions;
* `src/pljs.c` — the result handling of `call_trigger`.

Modelling conventions:

* Machine integers are modelled as `Int`/`Nat` with explicit wrapping
  (`wrapSigned`) where C truncation/overflow matters.
* C `double` values are modelled as exact rationals `ℚ`; a C cast
  `(int64)x` on a double is modelled by truncation toward zero (`truncQ`).
* PostgreSQL `Datum` values are modelled as a tagged union `Datum` whose
  constructors carry the payload the corresponding `DatumGetXXX` macro
  would extract; a composite datum carries its own tuple descriptor, the
  way a `HeapTupleHeader` carries its row-type id.
* quickjs `JSValue`s are modelled as a tagged union `JSVal`.  quickjs
  itself is an external dependency, so its coercion helpers
  (`JS_ToInt32`, `JS_ToBool`, …) are modelled as total Lean functions with
  ECMAScript semantics on the shapes the claims exercise; JSON
  parsing/serialization, which the claims never evaluate, is kept as an
  uninterpreted component of the `Catalog` environment.
* PostgreSQL catalog lookups (`get_type_category_preferred`,
  `get_typlenbyvalalign`, `get_element_type`, `lookup_rowtype_tupdesc`)
  are fields of a `Catalog` environment structure.
* `ereport(ERROR, …)` / `elog(ERROR, …)` are modelled as `Except.error`;
  a returned SQL NULL is `Option.none`.
-/

namespace PLJS

/-- PostgreSQL object identifier; `Oid` is an unsigned 32-bit integer in C,
modelled as `Nat`. -/
abbrev Oid := Nat

/-- `InvalidOid` from the PostgreSQL headers. -/
def InvalidOid : Oid := 0

-- Type oids from `catalog/pg_type_d.h` used by the switches in types.c.
def BOOLOID : Oid := 16
def BYTEAOID : Oid := 17
def NAMEOID : Oid := 19
def INT8OID : Oid := 20
def INT2OID : Oid := 21
def INT4OID : Oid := 23
def TEXTOID : Oid := 25
def OIDOID : Oid := 26
def JSONOID : Oid := 114
def XMLOID : Oid := 142
def FLOAT4OID : Oid := 700
def FLOAT8OID : Oid := 701
def BPCHAROID : Oid := 1042
def VARCHAROID : Oid := 1043
def DATEOID : Oid := 1082
def TIMESTAMPOID : Oid := 1114
def TIMESTAMPTZOID : Oid := 1184
def NUMERICOID : Oid := 1700
def VOIDOID : Oid := 2278
def TRIGGEROID : Oid := 2279
def JSONBOID : Oid := 3802

-- Type category codes from `catalog/pg_type.h` (`TYPCATEGORY_…`), as the
-- single characters PostgreSQL uses.
def TYPCATEGORY_ARRAY : Char := 'A'
def TYPCATEGORY_BOOLEAN : Char := 'B'
def TYPCATEGORY_COMPOSITE : Char := 'C'
def TYPCATEGORY_DATETIME : Char := 'D'
def TYPCATEGORY_NUMERIC : Char := 'N'
def TYPCATEGORY_PSEUDOTYPE : Char := 'P'
def TYPCATEGORY_STRING : Char := 'S'
def TYPCATEGORY_USER : Char := 'U'

/-- Truncation of an exact rational toward zero: the semantics of a C cast
from `double` to a signed integer type (for in-range values). -/
def truncQ (q : ℚ) : Int := if 0 ≤ q then ⌊q⌋ else -⌊-q⌋

/-- Reduce an integer into the range `[-2^(w-1), 2^(w-1))`: the semantics of
C truncation to a `w`-bit signed integer. -/
def wrapSigned (w : Nat) (n : Int) : Int :=
  (n + 2 ^ (w - 1)) % 2 ^ w - 2 ^ (w - 1)

/-- Reduce an integer into `[0, 2^w)`: C truncation to a `w`-bit unsigned
integer. -/
def wrapUnsigned (w : Nat) (n : Int) : Nat :=
  (n % 2 ^ w).toNat

/-- A UTF-8 continuation byte (`10xxxxxx`). -/
def isCont (b : Nat) : Bool := 0x80 ≤ b && b < 0xC0

/-- UTF-8 decoding with U+FFFD replacement: the byte-to-string conversion
the external script engine's `JS_NewStringLen` performs.  Well-formed 1-
to 4-byte sequences (overlong encodings and values beyond U+10FFFF
rejected) become their code point; every ill-formed byte becomes the
replacement character U+FFFD.  Three-byte sequences that would decode to a
UTF-16 surrogate half are also replaced — the engine would keep them as
lone UTF-16 units, a corner outside the rational string model that no
claim reaches. -/
def utf8Decode : List Nat → List Nat
  | [] => []
  | b :: rest =>
    if b < 0x80 then b :: utf8Decode rest
    else if 0xC2 ≤ b ∧ b ≤ 0xDF then
      match rest with
      | b2 :: rest2 =>
        if isCont b2 then ((b - 0xC0) * 64 + (b2 - 0x80)) :: utf8Decode rest2
        else 0xFFFD :: utf8Decode (b2 :: rest2)
      | [] => [0xFFFD]
    else if 0xE0 ≤ b ∧ b ≤ 0xEF then
      match rest with
      | b2 :: b3 :: rest3 =>
        if isCont b2 ∧ isCont b3 ∧ (b = 0xE0 → 0xA0 ≤ b2) then
          (if 0xD800 ≤ (b - 0xE0) * 4096 + (b2 - 0x80) * 64 + (b3 - 0x80) ∧
              (b - 0xE0) * 4096 + (b2 - 0x80) * 64 + (b3 - 0x80) < 0xE000
            then 0xFFFD
            else (b - 0xE0) * 4096 + (b2 - 0x80) * 64 + (b3 - 0x80))
            :: utf8Decode rest3
        else 0xFFFD :: utf8Decode (b2 :: b3 :: rest3)
      | [b2] => [0xFFFD, if b2 < 0x80 then b2 else 0xFFFD]
      | [] => [0xFFFD]
    else if 0xF0 ≤ b ∧ b ≤ 0xF4 then
      match rest with
      | b2 :: b3 :: b4 :: rest4 =>
        if isCont b2 ∧ isCont b3 ∧ isCont b4 ∧ (b = 0xF0 → 0x90 ≤ b2) ∧
            (b = 0xF4 → b2 < 0x90) then
          ((b - 0xF0) * 262144 + (b2 - 0x80) * 4096 + (b3 - 0x80) * 64 +
            (b4 - 0x80)) :: utf8Decode rest4
        else 0xFFFD :: utf8Decode (b2 :: b3 :: b4 :: rest4)
      | [b2, b3] => [0xFFFD, if b2 < 0x80 then b2 else 0xFFFD,
          if b3 < 0x80 then b3 else 0xFFFD]
      | [b2] => [0xFFFD, if b2 < 0x80 then b2 else 0xFFFD]
      | [] => [0xFFFD]
    else 0xFFFD :: utf8Decode rest
termination_by l => l.length
decreasing_by all_goals simp_wf <;> omega

/-- The UTF-8 bytes of one Unicode scalar value. -/
def utf8EncodeChar (c : Nat) : List Nat :=
  if c < 0x80 then [c]
  else if c < 0x800 then [0xC0 + c / 64, 0x80 + c % 64]
  else if c < 0x10000 then
    [0xE0 + c / 4096, 0x80 + c / 64 % 64, 0x80 + c % 64]
  else [0xF0 + c / 262144, 0x80 + c / 4096 % 64, 0x80 + c / 64 % 64,
    0x80 + c % 64]

/-- A raw byte buffer handed to `JS_NewStringLen`: the engine decodes it as
UTF-8, replacing ill-formed sequences with U+FFFD.  A `bytea` whose bytes
are not well-formed UTF-8 therefore does not come back unchanged. -/
def stringOfBytes (bs : List Nat) : String :=
  String.mk ((utf8Decode bs).map Char.ofNat)

/-- `JS_ToCStringLen` handing a string's buffer back: the UTF-8 encoding
of its characters. -/
def bytesOfString (s : String) : List Nat :=
  (s.data.map (fun c => utf8EncodeChar c.toNat)).flatten

/-! ## Javascript values (quickjs `JSValue`) -/

/-- The element kinds of the typed-array views distinguished by the
`JS_CLASS_…` ids at the top of types.c. -/
inductive TypedKind where
  | u8c  -- JS_CLASS_UINT8C_ARRAY (Uint8ClampedArray)
  | i8   -- JS_CLASS_INT8_ARRAY
  | u8   -- JS_CLASS_UINT8_ARRAY
  | i16  -- JS_CLASS_INT16_ARRAY
  | u16  -- JS_CLASS_UINT16_ARRAY
  | i32  -- JS_CLASS_INT32_ARRAY
  | u32  -- JS_CLASS_UINT32_ARRAY
  deriving DecidableEq, Repr

/-- A quickjs `JSValue`, as a tagged union of the shapes the marshaler
distinguishes.  `float` carries an exact rational in place of a double;
`date` carries the epoch milliseconds stored in the `Date`'s
`[[DateValue]]` (the result of `valueOf()` — always a whole number of
milliseconds, since `JS_NewDate` applies the ECMAScript `TimeClip`);
`dateInvalid` is an Invalid `Date`, whose `[[DateValue]]` is NaN (produced
by `TimeClip` outside ±8.64e15 ms); `typed` carries a typed-array view's
element values; `buffer` a generic `ArrayBuffer`'s bytes; `sharedBuffer` a
`SharedArrayBuffer`'s bytes. -/
inductive JSVal where
  | undefined
  | null
  | bool (b : Bool)
  | int (n : Int)
  | float (q : ℚ)
  | bigint (n : Int)
  | str (s : String)
  | date (epoch : ℚ)
  | dateInvalid
  | array (elems : List JSVal)
  | object (props : List (String × JSVal))
  | typed (k : TypedKind) (xs : List Int)
  | buffer (bs : List Nat)
  | sharedBuffer (bs : List Nat)
  deriving Repr

/-- `JS_IsArray`: true exactly for Javascript arrays (not typed views). -/
def jsIsArray : JSVal → Bool
  | .array _ => true
  | _ => false

/-- `JS_IsObject`: in Javascript, plain objects, arrays, `Date`s, typed
views and buffers are all objects. -/
def jsIsObject : JSVal → Bool
  | .object _ => true
  | .array _ => true
  | .date _ => true
  | .dateInvalid => true
  | .typed _ _ => true
  | .buffer _ => true
  | .sharedBuffer _ => true
  | _ => false

/-- `Is_Date` (types.c): the value has the `JS_CLASS_DATE` class (an
Invalid `Date` is still a `Date` instance). -/
def jsIsDate : JSVal → Bool
  | .date _ => true
  | .dateInvalid => true
  | _ => false

/-- `JS_IsString`. -/
def jsIsString : JSVal → Bool
  | .str _ => true
  | _ => false

/-- `JS_IsBigInt`. -/
def jsIsBigInt : JSVal → Bool
  | .bigint _ => true
  | _ => false

/-- `JS_IsNull`. -/
def jsIsNull : JSVal → Bool
  | .null => true
  | _ => false

/-- `JS_IsUndefined`. -/
def jsIsUndefined : JSVal → Bool
  | .undefined => true
  | _ => false

/-- `JS_ToBool`: ECMAScript truthiness.  (A rational `0` stands for both
`0.0` and `NaN`, the two falsy doubles.) -/
def jsToBool : JSVal → Bool
  | .undefined => false
  | .null => false
  | .bool b => b
  | .int n => n != 0
  | .float q => q != 0
  | .bigint n => n != 0
  | .str s => s != ""
  | _ => true

/-- `JS_ToInt32`: ECMAScript `ToInt32` on the shapes the code exercises.
Non-numeric shapes (strings that would go through `ToNumber`, containers)
are modelled as the NaN result `0`. -/
def jsToInt32 : JSVal → Int
  | .int n => wrapSigned 32 n
  | .float q => wrapSigned 32 (truncQ q)
  | .bool b => if b then 1 else 0
  | .date e => wrapSigned 32 (truncQ e)
  | _ => 0

/-- `JS_ToInt64`: ECMAScript `ToInteger` truncated to 64 bits. -/
def jsToInt64 : JSVal → Int
  | .int n => wrapSigned 64 n
  | .float q => wrapSigned 64 (truncQ q)
  | .bool b => if b then 1 else 0
  | .date e => wrapSigned 64 (truncQ e)
  | _ => 0

/-- `JS_ToBigInt64`: the low 64 bits of a Javascript big integer. -/
def jsToBigInt64 : JSVal → Int
  | .bigint n => wrapSigned 64 n
  | _ => 0

/-- `JS_ToFloat64` on the shapes the code exercises (`Date` values give
their epoch through `valueOf`).  NaN — the value of an Invalid `Date` and
of non-numeric coercions — has no rational representative and is modelled
as `0`, the same convention the integer coercions below use; the date and
timestamp encoders match on the `Date` shapes directly and do not rely on
it. -/
def jsToFloat64 : JSVal → ℚ
  | .int n => (n : ℚ)
  | .float q => q
  | .bool b => if b then 1 else 0
  | .date e => e
  | _ => 0

/-- A simple decimal rendering of a rational, for the (off-claim) string
coercion of numbers. -/
def ratToString (q : ℚ) : String :=
  if q.den = 1 then toString q.num else toString q.num ++ "/" ++ toString q.den

/-- `JS_ToCString`/`JS_ToCStringLen`: ECMAScript `ToString` on the shapes
the code exercises.  The renderings of containers and dates are simplified
(no claim evaluates them). -/
def jsToString : JSVal → String
  | .undefined => "undefined"
  | .null => "null"
  | .bool b => if b then "true" else "false"
  | .int n => toString n
  | .bigint n => toString n
  | .float q => ratToString q
  | .str s => s
  | _ => ""

/-- Association-list lookup used to model a Javascript object's own named
properties. -/
def lookupAssoc : List (String × JSVal) → String → Option JSVal
  | [], _ => none
  | (m, w) :: rest, n => if m = n then some w else lookupAssoc rest n

/-- `JS_GetPropertyStr` on the shapes the record encoder exercises: named
own properties of plain objects; anything else yields `undefined`.
(Array index/length properties are modelled where the source reads them,
via `pljs_js_array_length`.) -/
def jsGetProp : JSVal → String → JSVal
  | .object props, n => (lookupAssoc props n).getD .undefined
  | _, _ => .undefined

/-- `JS_SetPropertyStr` on an object: replace the named own property if
present, else append it. -/
def jsSetProp : List (String × JSVal) → String → JSVal → List (String × JSVal)
  | [], n, v => [(n, v)]
  | (m, w) :: rest, n, v =>
    if m = n then (m, v) :: rest else (m, w) :: jsSetProp rest n v

/-- Build a Javascript object by successive `JS_SetPropertyStr` calls on a
fresh `JS_NewObject`. -/
def buildObject (props : List (String × JSVal)) : List (String × JSVal) :=
  props.foldl (fun acc p => jsSetProp acc p.1 p.2) []

/-- `pljs_js_array_length` (types.c:204): read the `length` property of a
Javascript array and convert it with `JS_ToInt32`. -/
def pljs_js_array_length : JSVal → Nat
  | .array elems => elems.length
  | .typed _ xs => xs.length
  | _ => 0

/-- `JS_GetOwnPropertyNames` with `JS_GPN_STRING_MASK`: the own string-keyed
property names.  For arrays these are the element indices (plus nothing
relevant here); for non-objects the call fails, modelled as `none`. -/
def jsOwnPropertyNames : JSVal → Option (List String)
  | .object props => some (props.map Prod.fst)
  | .array elems => some ((List.range elems.length).map toString)
  | .typed _ xs => some ((List.range xs.length).map toString)
  | .buffer _ => some []
  | .sharedBuffer _ => some []
  | .date _ => some []
  | .dateInvalid => some []
  | _ => none

/-! ## PostgreSQL values and descriptors -/

/-- One attribute of a tuple descriptor (`FormData_pg_attribute`): the
fields the marshaler reads. -/
structure Attr where
  attname : String
  atttypid : Oid
  attisdropped : Bool
  deriving Repr, DecidableEq

/-- A row/tuple descriptor (`TupleDesc`): the ordered attributes. -/
structure TupleDesc where
  attrs : List Attr
  deriving Repr, DecidableEq

/-- A PostgreSQL `Datum`, as a tagged union carrying what the corresponding
`DatumGetXXX` projection would read.  `text` also stands for the other
varlena string types (varchar, bpchar, xml) and for `name`; `timestamp`
carries microseconds since the PostgreSQL epoch (the 64-bit integer
timestamp representation); `json`/`jsonb` carry the serialized text;
`array` carries the elements with their null flags (PostgreSQL array
dimensions are not modelled — types.c always rebuilds a 1-D array);
`record` carries the row-type descriptor embedded in the tuple header
together with the field values. -/
inductive Datum where
  | bool (b : Bool)
  | int16 (n : Int)
  | int32 (n : Int)
  | int64 (n : Int)
  | oid (n : Nat)
  | f4 (q : ℚ)
  | f8 (q : ℚ)
  | numeric (q : ℚ)
  | text (s : String)
  | bytea (bs : List Nat)
  | date (d : Int)
  | timestamp (t : Int)
  | json (s : String)
  | jsonb (s : String)
  | void
  | array (elems : List (Option Datum))
  | record (td : TupleDesc) (fields : List (Option Datum))
  deriving Repr

/-- The catalog / external-collaborator environment: PostgreSQL type
catalog lookups, row-type descriptors, and the script engine's JSON
(de)serializer, which types.c calls but does not implement. -/
structure Catalog where
  /-- `get_type_category_preferred` / `TypeCategory`: the type's category
  code. -/
  category : Oid → Char
  /-- `get_typlenbyvalalign`: `typlen` (−1 for varlena). -/
  typlen : Oid → Int
  /-- `get_typlenbyvalalign`: `typbyval`. -/
  typbyval : Oid → Bool
  /-- `get_typlenbyvalalign`: `typalign`. -/
  typalign : Oid → Char
  /-- `get_element_type`: the array's element type, `InvalidOid` if the
  type is not an array. -/
  element : Oid → Oid
  /-- `lookup_rowtype_tupdesc`: the registered row descriptor of a
  composite type, `none` when the lookup errors. -/
  rowtype : Oid → Option TupleDesc
  /-- `JS_ParseJSON` of the external script engine. -/
  parseJSON : String → JSVal
  /-- `JS_JSONStringify` of the external script engine (composed with
  `JS_ToCStringLen`). -/
  stringifyJSON : JSVal → String
  /-- `jsonb_in` normalization applied by `DirectFunctionCall1(jsonb_in, …)`. -/
  jsonbCanon : String → String

/-- `pljs_type` (pljs.h): the resolved type descriptor. -/
structure pljs_type where
  typid : Oid
  length : Int
  byval : Bool
  align : Char
  category : Char
  is_composite : Bool
  deriving Repr, DecidableEq

/-- `pljs_type_fill` (types.c:222-247): resolve an `Oid` into a
`pljs_type`.  For array categories the element type is resolved and the
descriptor re-derived for the element (an unresolvable element type is an
`ereport(ERROR, …)`); pseudo types are conservatively marked composite. -/
def pljs_type_fill (cat : Catalog) (typid : Oid) : Except String pljs_type :=
  let category := cat.category typid
  let is_composite := category = TYPCATEGORY_COMPOSITE
  let length := cat.typlen typid
  let byval := cat.typbyval typid
  let align := cat.typalign typid
  if category = TYPCATEGORY_ARRAY then
    let elemid := cat.element typid
    if elemid = InvalidOid then
      .error "cannot determine element type of array"
    else
      .ok { typid := elemid, length := cat.typlen elemid,
            byval := cat.typbyval elemid, align := cat.typalign elemid,
            category := category,
            is_composite := cat.category elemid = TYPCATEGORY_COMPOSITE }
  else if category = TYPCATEGORY_PSEUDOTYPE then
    .ok { typid := typid, length := length, byval := byval, align := align,
          category := category, is_composite := true }
  else
    .ok { typid := typid, length := length, byval := byval, align := align,
          category := category, is_composite := is_composite }

/-! ## IEEE-754 double rounding

The epoch conversions below compute with C `double`s, so every arithmetic
operation rounds its exact result to 53 bits of precision.  `roundDouble`
implements that rounding over exact rationals: round-to-nearest with ties
to even at the unit in the last place of the operand's binade.  The
exponent-range effects of the format (overflow to infinity, subnormals
below `2^-1022`) are outside the magnitudes these functions ever produce
and are not modelled. -/

/-- Fuel-driven bit length: `bitLenAux fuel n` is the number of binary
digits of `n` whenever `n ≤ fuel`. -/
def bitLenAux : Nat → Nat → Nat
  | 0, _ => 0
  | fuel + 1, n => if n = 0 then 0 else bitLenAux fuel (n / 2) + 1

/-- The number of binary digits of `n` (`0` for `0`). -/
def bitLen (n : Nat) : Nat := bitLenAux n n

/-- Round a rational to the nearest integer, ties to even. -/
def rne (x : ℚ) : ℤ :=
  if x - ⌊x⌋ < 1 / 2 then ⌊x⌋
  else if 1 / 2 < x - ⌊x⌋ then ⌊x⌋ + 1
  else if ⌊x⌋ % 2 = 0 then ⌊x⌋ else ⌊x⌋ + 1

/-- The binade exponent of a nonzero rational: the unique `e` with
`2 ^ e ≤ |q| < 2 ^ (e + 1)`, computed from the bit lengths of numerator
and denominator. -/
def expOf (q : ℚ) : ℤ :=
  if (if bitLen q.den ≤ bitLen q.num.natAbs then
        decide (q.den * 2 ^ (bitLen q.num.natAbs - bitLen q.den) ≤
          q.num.natAbs)
      else decide (q.den ≤ q.num.natAbs *
        2 ^ (bitLen q.den - bitLen q.num.natAbs)) : Bool)
  then (bitLen q.num.natAbs : ℤ) - bitLen q.den
  else ((bitLen q.num.natAbs : ℤ) - bitLen q.den) - 1

/-- IEEE-754 binary64 rounding of an exact rational: round-to-nearest,
ties-to-even, at 53 significant bits. -/
def roundDouble (q : ℚ) : ℚ :=
  if q = 0 then 0
  else if 52 ≤ expOf q then
    (rne (q / 2 ^ (expOf q - 52).toNat) : ℚ) * 2 ^ (expOf q - 52).toNat
  else
    (rne (q * 2 ^ (52 - expOf q).toNat) : ℚ) / 2 ^ (52 - expOf q).toNat

/-! ## Epoch conversions (types.c:76-137)

The `HAVE_INT64_TIMESTAMP` branches are modelled: PostgreSQL `DateADT` is a
day count and `TimestampTz` a 64-bit microsecond count, matching the
`DatumGetDateADT` / `DatumGetTimestampTz` projections the callers use.
`POSTGRES_EPOCH_JDATE - UNIX_EPOCH_JDATE = 2451545 - 2440588 = 10957` days.
Every C double operation — including the `int64`-to-`double` conversion of
a timestamp, which is inexact beyond 2^53 — is wrapped in `roundDouble`;
the `int32`-to-`double` conversion of a `DateADT` is always exact.  The
final casts back to integer types are modelled with `truncQ`, the defined
(in-range) behaviour of a C float-to-integer cast. -/

/-- The epoch offset `(POSTGRES_EPOCH_JDATE - UNIX_EPOCH_JDATE) * 86400000.0`
in milliseconds (`10957 * 86400000 = 946684800000`, exactly representable). -/
def epochOffsetMs : ℚ := 10957 * 86400000

/-- `USECS_PER_DAY`. -/
def USECS_PER_DAY : ℚ := 86400000000

/-- `epoch_to_date` (types.c:76-85): Javascript epoch milliseconds to a
`DateADT` day count; the subtraction, the multiplication by 1000 and the
division by `USECS_PER_DAY` each round, and the final C cast
`(DateADT)epoch` truncates. -/
def epoch_to_date (epoch : ℚ) : Int :=
  truncQ (roundDouble (roundDouble (roundDouble (epoch - epochOffsetMs) *
    1000) / USECS_PER_DAY))

/-- `epoch_to_timestamptz` (types.c:93-101): Javascript epoch milliseconds
to a 64-bit microsecond timestamp; the subtraction rounds, then
`(int64)epoch * 1000` truncates to whole milliseconds before the integer
multiplication. -/
def epoch_to_timestamptz (epoch : ℚ) : Int :=
  truncQ (roundDouble (epoch - epochOffsetMs)) * 1000

/-- `date_to_epoch` (types.c:109-119): a `DateADT` day count to Javascript
epoch milliseconds; the multiplication by `USECS_PER_DAY`, the division by
1000 and the offset addition each round. -/
def date_to_epoch (d : Int) : ℚ :=
  roundDouble (roundDouble (roundDouble ((d : ℚ) * USECS_PER_DAY) / 1000) +
    epochOffsetMs)

/-- `timestamptz_to_epoch` (types.c:127-137): a 64-bit microsecond
timestamp to Javascript epoch milliseconds; the `(double)tm` conversion,
the division by 1000 and the offset addition each round. -/
def timestamptz_to_epoch (t : Int) : ℚ :=
  roundDouble (roundDouble (roundDouble (t : ℚ) / 1000) + epochOffsetMs)

/-- `JS_NewDate` of the script engine: the ECMAScript `TimeClip` is applied
to the incoming epoch — a finite value within ±8.64e15 ms is truncated
toward zero (a `Date` stores a whole number of milliseconds), anything
outside becomes an Invalid `Date` (NaN). -/
def jsNewDate (t : ℚ) : JSVal :=
  if -8640000000000000 ≤ t ∧ t ≤ 8640000000000000 then
    .date ((truncQ t : Int) : ℚ)
  else .dateInvalid

/-! ## Relational → script conversion (types.c:260-545) -/

/-- `DatumGetBool`. -/
def datumGetBool : Datum → Bool
  | .bool b => b
  | _ => false

/-- `DatumGetInt16` / `DatumGetInt32` / `DatumGetInt64` and the raw use of
a by-value `Datum` as an integer (`JS_NewInt64(ctx, arg)`,
`JS_NewInt32(ctx, arg)`). -/
def datumRawInt : Datum → Int
  | .bool b => if b then 1 else 0
  | .int16 n => n
  | .int32 n => n
  | .int64 n => n
  | .oid n => n
  | .date d => d
  | .timestamp t => t
  | _ => 0

/-- `DatumGetFloat4` / `DatumGetFloat8` and the `numeric_float8` direct
call (doubles as exact rationals). -/
def datumGetFloat : Datum → ℚ
  | .f4 q => q
  | .f8 q => q
  | .numeric q => q
  | _ => 0

/-- `dup_pgtext(DatumGetTextP(arg))` / `DatumGetName(arg)->data`: the
string payload of a text-like datum. -/
def datumGetString : Datum → String
  | .text s => s
  | .json s => s
  | .jsonb s => s
  | .bytea bs => stringOfBytes bs
  | _ => ""

/-- `DatumGetDateADT`. -/
def datumGetDate : Datum → Int
  | .date d => d
  | _ => 0

/-- `DatumGetTimestampTz`. -/
def datumGetTimestamp : Datum → Int
  | .timestamp t => t
  | _ => 0

/-- The byte payload of a `bytea` datum (`VARDATA` of the detoasted
datum). -/
def datumGetByteaData : Datum → List Nat
  | .bytea bs => bs
  | _ => []

/-- `pljs_datum_to_jsvalue_default` (types.c:380-399): the unknown-type
fallback.  By-value types are surfaced as 32-bit integers, variable-length
types as a byte string (the extra `length` own property set on the
primitive string is ignored by quickjs), fixed-length by-reference types as
a byte string of `typlen` bytes. -/
def pljs_datum_to_jsvalue_default (type : pljs_type) (arg : Datum) : JSVal :=
  if type.byval then
    .int (wrapSigned 32 (datumRawInt arg))
  else if type.length = -1 then
    .str (datumGetString arg)
  else
    .str ((datumGetString arg).take type.length.toNat)

/-- The scalar dispatch switch of `pljs_datum_to_jsvalue`
(types.c:432-544), reached when the resolved type is neither an array nor
(unless skipped) composite.  The switch is on `type.typid`. -/
def datum_scalar_to_jsvalue (cat : Catalog) (type : pljs_type) (arg : Datum) : JSVal :=
  if type.typid = OIDOID then .int (datumRawInt arg)
  else if type.typid = BOOLOID then .bool (datumGetBool arg)
  else if type.typid = INT2OID then .int (datumRawInt arg)
  else if type.typid = INT4OID then .int (datumRawInt arg)
  else if type.typid = INT8OID then .bigint (datumRawInt arg)
  else if type.typid = FLOAT4OID then .float (datumGetFloat arg)
  else if type.typid = FLOAT8OID then .float (datumGetFloat arg)
  else if type.typid = NUMERICOID then .float (datumGetFloat arg)
  else if type.typid = TEXTOID ∨ type.typid = VARCHAROID ∨
          type.typid = BPCHAROID ∨ type.typid = XMLOID then
    .str (datumGetString arg)
  else if type.typid = NAMEOID then .str (datumGetString arg)
  else if type.typid = JSONOID then cat.parseJSON (datumGetString arg)
  else if type.typid = JSONBOID then cat.parseJSON (datumGetString arg)
  else if type.typid = BYTEAOID then .str (stringOfBytes (datumGetByteaData arg))
  else if type.typid = DATEOID then jsNewDate (date_to_epoch (datumGetDate arg))
  else if type.typid = TIMESTAMPOID ∨ type.typid = TIMESTAMPTZOID then
    jsNewDate (timestamptz_to_epoch (datumGetTimestamp arg))
  else pljs_datum_to_jsvalue_default type arg

mutual

/-- `pljs_datum_to_object` (types.c:260-324): convert a composite datum to
a script object.  The row-type descriptor travels inside the tuple header
(modelled by the `record` constructor); dropped attributes are skipped,
null attributes become the `null` property value, the rest recurse through
`pljs_datum_to_jsvalue`, and the object is built by successive
`JS_SetPropertyStr` calls.  A datum whose row type cannot be resolved makes
the `PG_CATCH` branch surface an error. -/
def pljs_datum_to_object (cat : Catalog) (arg : Datum) : Except String JSVal :=
  match arg with
  | .record td fields => do
      let props ← decodeRowProps cat td.attrs fields
      pure (JSVal.object (buildObject props))
  | _ => .error "could not determine row description"

/-- The attribute loop shared by `pljs_datum_to_object` (types.c:294-318)
and `pljs_tuple_to_jsvalue` (types.c:1168-1186): walk the descriptor's
attributes in parallel with the tuple's fields, skipping dropped
attributes, pairing each remaining attribute name with `null` or the
converted value.  `heap_getattr` past the stored fields yields null. -/
def decodeRowProps (cat : Catalog) :
    List Attr → List (Option Datum) → Except String (List (String × JSVal))
  | [], _ => .ok []
  | a :: as, [] =>
    if a.attisdropped then decodeRowProps cat as []
    else do
      let rest ← decodeRowProps cat as []
      pure ((a.attname, JSVal.null) :: rest)
  | a :: as, f :: fs =>
    if a.attisdropped then decodeRowProps cat as fs
    else
      match f with
      | none => do
          let rest ← decodeRowProps cat as fs
          pure ((a.attname, JSVal.null) :: rest)
      | some d => do
          let v ← pljs_datum_to_jsvalue cat d a.atttypid false
          let rest ← decodeRowProps cat as fs
          pure ((a.attname, v) :: rest)

/-- `pljs_datum_to_array` (types.c:337-361): deconstruct a PostgreSQL
array and convert each element (`NULL` elements to script `null`),
producing a script array (whose `length` is the element count). -/
def pljs_datum_to_array (cat : Catalog) (type : pljs_type) (arg : Datum) :
    Except String JSVal :=
  match arg with
  | .array elems => do
      let vs ← decodeArrayElems cat type.typid elems
      pure (JSVal.array vs)
  | _ => .error "expected array datum"

/-- The element loop of `pljs_datum_to_array` (types.c:346-352). -/
def decodeArrayElems (cat : Catalog) (elemType : Oid) :
    List (Option Datum) → Except String (List JSVal)
  | [] => .ok []
  | none :: rest => do
      let vs ← decodeArrayElems cat elemType rest
      pure (JSVal.null :: vs)
  | some d :: rest => do
      let v ← pljs_datum_to_jsvalue cat d elemType false
      let vs ← decodeArrayElems cat elemType rest
      pure (v :: vs)

/-- `pljs_datum_to_jsvalue` (types.c:416-545): resolve the type, route
arrays to `pljs_datum_to_array`, composites (unless `skip_composite`) to
`pljs_datum_to_object`, and scalars to the dispatch switch. -/
def pljs_datum_to_jsvalue (cat : Catalog) (arg : Datum) (argtype : Oid)
    (skip_composite : Bool) : Except String JSVal := do
  let type ← pljs_type_fill cat argtype
  if type.category = TYPCATEGORY_ARRAY then
    pljs_datum_to_array cat type arg
  else if !skip_composite && type.is_composite then
    pljs_datum_to_object cat arg
  else
    .ok (datum_scalar_to_jsvalue cat type arg)

end

/-! ## Script → relational conversion (types.c:559-1129) -/

/-- `jsvalue_to_datum_default` (types.c:744-794): the unknown-type reverse
fallback.  Reads the value's `is_null` property to decide SQL NULL, then
surfaces by-value types as a 32-bit integer read, varlena types as the
string bytes, and positive fixed-length types as at most `typlen` bytes
into a zeroed buffer. -/
def jsvalue_to_datum_default (type : pljs_type) (val : JSVal) :
    Except String (Option Datum) :=
  if jsToBool (jsGetProp val "is_null") then .ok none
  else if type.byval then .ok (some (.int32 (jsToInt32 val)))
  else if type.length = -1 then .ok (some (.text (jsToString val)))
  else if type.length > 0 then
    .ok (some (.text ((jsToString val).take type.length.toNat)))
  else .ok none

/-- The index sequence of the copy loop in the 4-byte typed-view branch of
the `BYTEAOID` case (types.c:1057): `for (size_t i = 0; i <
pbytes_per_element * length; i++)` with `pbytes_per_element = 4`, where
`length` is the view's element count and the target `array_copy` was
allocated with `palloc(pbytes_per_element * length)` bytes, i.e. `length`
4-byte slots.  (The sibling 1- and 2-byte branches loop `i < length`.) -/
def u32CopyIndices (length : Nat) : List Nat := List.range (4 * length)

/-- Little-endian byte serialization of a `width`-byte unsigned value, for
the `memcpy` of a 2- or 4-byte element buffer into `VARDATA`. -/
def bytesLE (width : Nat) (v : Nat) : List Nat :=
  (List.range width).map (fun j => v / 256 ^ j % 256)

/-- `JS_GetPropertyUint32` on a typed-array view: the element at the index
as a number, `undefined` past the end. -/
def typedElem (xs : List Int) (i : Nat) : JSVal :=
  match xs.get? i with
  | some v => .int v
  | none => .undefined

/-- The `BYTEAOID` case of `pljs_jsvalue_to_datum` (types.c:996-1105):
1-, 2- and 4-byte typed numeric views, generic `ArrayBuffer`s and strings
are copied into a length-prefixed `bytea`; every other shape logs at
`DEBUG3` and returns SQL NULL (`PG_RETURN_NULL()`), raising no error.  In
the 4-byte branch the datum carries the bytes of the `length` slots inside
the allocation (the C loop additionally reads and writes out of bounds for
the indices of `u32CopyIndices` at and beyond `length`). -/
def jsvalue_to_bytea (val : JSVal) : Except String (Option Datum) :=
  let length := pljs_js_array_length val
  match val with
  | .typed .u8 xs => .ok (some (.bytea
      ((List.range length).map (fun i => wrapUnsigned 8 (jsToInt32 (typedElem xs i))))))
  | .typed .i8 xs => .ok (some (.bytea
      ((List.range length).map (fun i => wrapUnsigned 8 (jsToInt32 (typedElem xs i))))))
  | .typed .u16 xs => .ok (some (.bytea
      (((List.range length).map (fun i => wrapUnsigned 16 (jsToInt32 (typedElem xs i)))).map (bytesLE 2)).flatten))
  | .typed .i16 xs => .ok (some (.bytea
      (((List.range length).map (fun i => wrapUnsigned 16 (jsToInt32 (typedElem xs i)))).map (bytesLE 2)).flatten))
  | .typed .u32 xs => .ok (some (.bytea
      ((((u32CopyIndices length).filter (fun i => i < length)).map
          (fun i => wrapUnsigned 32 (jsToInt32 (typedElem xs i)))).map (bytesLE 4)).flatten))
  | .typed .i32 xs => .ok (some (.bytea
      ((((u32CopyIndices length).filter (fun i => i < length)).map
          (fun i => wrapUnsigned 32 (jsToInt32 (typedElem xs i)))).map (bytesLE 4)).flatten))
  | .buffer bs => .ok (some (.bytea bs))
  | .str s => .ok (some (.bytea (bytesOfString s)))
  | _ => .ok none

/-- The scalar dispatch switch of `pljs_jsvalue_to_datum`
(types.c:841-1125), reached for non-array, non-composite, non-null values.
The switch is on the original `rettype`.  A `DATEOID` /
`TIMESTAMP(TZ)OID` target whose value is not a script `Date` breaks out of
the switch and reaches the trailing `PG_RETURN_NULL()`. -/
def jsvalue_scalar_to_datum (cat : Catalog) (rettype : Oid) (type : pljs_type)
    (val : JSVal) : Except String (Option Datum) :=
  if rettype = VOIDOID then .ok (some .void)
  else if rettype = OIDOID then .ok (some (.oid (wrapUnsigned 32 (jsToInt64 val))))
  else if rettype = BOOLOID then .ok (some (.bool (jsToBool val)))
  else if rettype = INT2OID then
    .ok (some (.int16 (wrapSigned 16
      (if jsIsBigInt val then wrapSigned 32 (jsToBigInt64 val) else jsToInt32 val))))
  else if rettype = INT4OID then
    .ok (some (.int32
      (if jsIsBigInt val then wrapSigned 32 (jsToBigInt64 val) else jsToInt32 val)))
  else if rettype = INT8OID then
    .ok (some (.int64 (if jsIsBigInt val then jsToBigInt64 val else jsToInt64 val)))
  else if rettype = FLOAT4OID then .ok (some (.f4 (jsToFloat64 val)))
  else if rettype = FLOAT8OID then .ok (some (.f8 (jsToFloat64 val)))
  else if rettype = NUMERICOID then
    match val with
    | .bigint n => .ok (some (.numeric (n : ℚ)))
    | _ => .ok (some (.numeric (jsToFloat64 val)))
  else if rettype = TEXTOID ∨ rettype = VARCHAROID ∨ rettype = BPCHAROID ∨
          rettype = NAMEOID ∨ rettype = XMLOID then
    .ok (some (.text (jsToString val)))
  else if rettype = JSONOID then .ok (some (.json (cat.stringifyJSON val)))
  else if rettype = JSONBOID then
    .ok (some (.jsonb (cat.jsonbCanon (cat.stringifyJSON val))))
  else if rettype = BYTEAOID then jsvalue_to_bytea val
  else if rettype = DATEOID then
    -- `if (Is_Date(val))`: `JS_ToFloat64` reads the stored `[[DateValue]]`.
    -- For an Invalid `Date` that value is NaN and the C cast `(DateADT)` of
    -- NaN is undefined; the x86-64 outcome (the `cvttsd2si` indefinite
    -- value `INT32_MIN`) is modelled, unreached by every claim.
    match val with
    | .date e => .ok (some (.date (epoch_to_date e)))
    | .dateInvalid => .ok (some (.date (-2147483648)))
    | _ => .ok none
  else if rettype = TIMESTAMPOID ∨ rettype = TIMESTAMPTZOID then
    -- For an Invalid `Date`, `(int64)NaN` is undefined; the x86-64 outcome
    -- is `INT64_MIN`, whose low 64 bits after the `* 1000` are 0.
    match val with
    | .date e => .ok (some (.timestamp (epoch_to_timestamptz e)))
    | .dateInvalid => .ok (some (.timestamp 0))
    | _ => .ok none
  else jsvalue_to_datum_default type val

/-- Looking a name up in an object's property list finds a strict subterm. -/
theorem sizeOf_lookupAssoc {props : List (String × JSVal)} {n : String}
    {v : JSVal} (h : lookupAssoc props n = some v) : sizeOf v < sizeOf props := by
  induction props with
  | nil => simp [lookupAssoc] at h
  | cons p rest ih =>
    obtain ⟨m, w⟩ := p
    by_cases hm : m = n
    · simp [lookupAssoc, hm] at h
      subst h
      simp
      omega
    · simp [lookupAssoc, hm] at h
      have := ih h
      simp
      omega

/-- A property read that does not yield `undefined` is a strict subterm of
the value it was read from. -/
theorem sizeOf_jsGetProp_lt (val : JSVal) (n : String)
    (h : jsGetProp val n ≠ JSVal.undefined) :
    sizeOf (jsGetProp val n) < sizeOf val := by
  cases val <;> simp [jsGetProp] at h ⊢
  case object props =>
    cases hl : lookupAssoc props n with
    | none => simp [hl] at h
    | some v =>
      simp [hl]
      have := sizeOf_lookupAssoc hl
      omega

/-- A value that is neither script `null` nor `undefined` is not
`undefined`. -/
theorem ne_undefined_of_guard {o : JSVal}
    (h : ¬(jsIsNull o || jsIsUndefined o) = true) : o ≠ JSVal.undefined := by
  intro he
  subst he
  simp [jsIsNull, jsIsUndefined] at h

mutual

/-- `pljs_jsvalue_to_array` (types.c:559-593): read the script array's
`length`, encode each element (`null` elements preserved as SQL NULLs),
and build a 1-D, lower-bound-1 PostgreSQL array of the element type. -/
def pljs_jsvalue_to_array (cat : Catalog) (type : pljs_type) (val : JSVal) :
    Except String (Option Datum) :=
  match val with
  | .array elems => do
      let out ← encodeArrayElems cat type.typid elems
      pure (some (.array out))
  | _ => pure (some (.array []))
termination_by (sizeOf val, 0, 1, 0)

/-- The element loop of `pljs_jsvalue_to_array` (types.c:576-585). -/
def encodeArrayElems (cat : Catalog) (elemType : Oid) :
    List JSVal → Except String (List (Option Datum))
  | [] => pure []
  | e :: rest =>
    if jsIsNull e then do
      let out ← encodeArrayElems cat elemType rest
      pure (none :: out)
    else do
      let d ← pljs_jsvalue_to_datum cat elemType e
      let out ← encodeArrayElems cat elemType rest
      pure (d :: out)
termination_by elems => (sizeOf elems, 0, 0, 0)

/-- `pljs_jsvalue_to_record` (types.c:662-726): a script `null` or
`undefined` is a NULL record; otherwise the row descriptor is taken from
the caller or looked up from the type, each non-dropped attribute is read
from the value's like-named property (missing/`null`/`undefined`
properties become NULL fields, dropped attributes are always NULL), and
the tuple is formed.  A failing row-type lookup is rethrown
(`PG_RE_THROW`). -/
def pljs_jsvalue_to_record (cat : Catalog) (type : pljs_type) (val : JSVal)
    (tupdesc : Option TupleDesc) : Except String (Option Datum) :=
  if jsIsNull val || jsIsUndefined val then pure none
  else
    match tupdesc with
    | some td => do
        let fields ← encodeRowFields cat val td.attrs
        pure (some (.record td fields))
    | none =>
      match cat.rowtype type.typid with
      | none => .error "could not determine row description"
      | some td => do
          let fields ← encodeRowFields cat val td.attrs
          pure (some (.record td fields))
termination_by (sizeOf val, 0, 1, 0)

/-- The attribute loop of `pljs_jsvalue_to_record` (types.c:694-711). -/
def encodeRowFields (cat : Catalog) (val : JSVal) :
    List Attr → Except String (List (Option Datum))
  | [] => pure []
  | a :: rest =>
    if a.attisdropped then do
      let out ← encodeRowFields cat val rest
      pure (none :: out)
    else
      let o := jsGetProp val a.attname
      if h : (jsIsNull o || jsIsUndefined o) = true then do
        let out ← encodeRowFields cat val rest
        pure (none :: out)
      else do
        let d ← pljs_jsvalue_to_datum cat a.atttypid o
        let out ← encodeRowFields cat val rest
        pure (d :: out)
termination_by attrs => (sizeOf val, 0, 0, sizeOf attrs)
decreasing_by
  all_goals simp_wf
  all_goals first
    | (apply Prod.Lex.right
       apply Prod.Lex.right
       apply Prod.Lex.right
       omega)
    | (apply Prod.Lex.left
       exact sizeOf_jsGetProp_lt val a.attname (ne_undefined_of_guard h))

/-- `pljs_jsvalue_to_datum` (types.c:810-1129): resolve the target type;
script arrays (except for JSON/JSONB element types) take the array path;
a non-array value at an array-category target is an error; composite
targets take the record path; `null`/`undefined` is SQL NULL; otherwise
the scalar switch on the original `rettype` decides. -/
def pljs_jsvalue_to_datum (cat : Catalog) (rettype : Oid) (val : JSVal) :
    Except String (Option Datum) := do
  let type ← pljs_type_fill cat rettype
  if type.typid != JSONOID && type.typid != JSONBOID && jsIsArray val then
    pljs_jsvalue_to_array cat type val
  else if type.category == TYPCATEGORY_ARRAY && !jsIsArray val then
    .error "value is not an Array"
  else if type.is_composite then
    pljs_jsvalue_to_record cat type val none
  else if jsIsNull val || jsIsUndefined val then
    pure none
  else
    jsvalue_scalar_to_datum cat rettype type val
termination_by (sizeOf val, 0, 2, 0)

end

/-! ## Whole-row conversion and the set-returning emit-row primitive -/

/-- `pljs_tuple_to_jsvalue` (types.c:1164-1189): convert a heap tuple to a
script object — one property per non-dropped attribute, named after the
attribute, null attributes as script `null`, dropped attributes skipped;
the object is built by successive `JS_SetPropertyStr` calls. -/
def pljs_tuple_to_jsvalue (cat : Catalog) (td : TupleDesc)
    (row : List (Option Datum)) : Except String JSVal := do
  let props ← decodeRowProps cat td.attrs row
  pure (JSVal.object (buildObject props))

/-- `pljs_jsvalue_object_contains_all_column_names` (types.c:608-646):
enumerate the value's own string-keyed properties (a failing enumeration —
a non-object — is `false`), then require every non-dropped attribute name
of the descriptor to occur among them. -/
def pljs_jsvalue_object_contains_all_column_names (val : JSVal)
    (tupdesc : TupleDesc) : Bool :=
  match jsOwnPropertyNames val with
  | none => false
  | some keys =>
    tupdesc.attrs.all (fun a => a.attisdropped || keys.contains a.attname)

/-- Modelled from the spec: `pljs_jsvalue_to_datums` is declared in pljs.h
and called by `pljs_return_next` (functions.c:1080) but its definition is
not among the source files under src/.  Spec §4.3/§4.4: the composite
encoder produces "one field per row-descriptor attribute, read by matching
script-object property name; missing/undefined → field null", skipping
dropped columns — the same per-attribute rule the in-source record encoder
(`encodeRowFields`, types.c:694-711) implements, so the model reuses it. -/
def pljs_jsvalue_to_datums (cat : Catalog) (td : TupleDesc) (val : JSVal) :
    Except String (List (Option Datum)) :=
  encodeRowFields cat val td.attrs

/-- `pljs_return_state` (pljs.h): the materialized result buffer of a
set-returning call.  The tuplestore is modelled as the FIFO list of rows
appended so far. -/
structure pljs_return_state where
  tuple_desc : TupleDesc
  is_composite : Bool
  tuple_store : List (List (Option Datum))
  deriving Repr

/-- `pljs_return_next` (functions.c:1058-1097): the `pljs.return_next`
primitive.  With no active return state the call is an error; in composite
shape the argument must be a script object carrying every non-dropped
column name (else an error, leaving the buffer untouched), and exactly one
row is appended by `tuplestore_putvalues`; in scalar shape the single
value is appended as a one-column row. -/
def pljs_return_next (cat : Catalog) (retstate : Option pljs_return_state)
    (arg : JSVal) : Except String pljs_return_state :=
  match retstate with
  | none => .error "return_next called in context that cannot accept a set"
  | some st =>
    if st.is_composite then
      if !jsIsObject arg then
        .error "argument must be an object"
      else if !pljs_jsvalue_object_contains_all_column_names arg st.tuple_desc then
        .error "field name / property name mismatch"
      else do
        let values ← pljs_jsvalue_to_datums cat st.tuple_desc arg
        pure { st with tuple_store := st.tuple_store ++ [values] }
    else do
      let firstType :=
        match st.tuple_desc.attrs with
        | a :: _ => a.atttypid
        | [] => InvalidOid
      let result ← pljs_jsvalue_to_datum cat firstType arg
      pure { st with tuple_store := st.tuple_store ++ [[result]] }

/-! ## The execution-context and compiled-function caches (cache.c) -/

/-- `pljs_func` (pljs.h): the function metadata the cache operations
read. -/
structure pljs_func where
  fn_oid : Oid
  user_id : Oid
  trigger : Bool
  prosrc : String
  deriving Repr

/-- `pljs_function_cache_value` (pljs.h): one cached compiled function. -/
structure pljs_function_cache_value where
  fn_oid : Oid
  user_id : Oid
  trigger : Bool
  prosrc : String
  deriving Repr

/-- `pljs_context` (pljs.h): the ephemeral call context holding the
function about to be cached (`ctx` is the opaque `JSContext` handle). -/
structure pljs_context where
  ctx : Nat
  function : pljs_func
  deriving Repr

/-- `pljs_context_cache_value` (pljs.h): one cached per-user execution
context with its nested function hash table, modelled as an association
list keyed by `fn_oid`. -/
structure pljs_context_cache_value where
  user_id : Oid
  ctx : Nat
  function_hash_table : List (Oid × pljs_function_cache_value)
  deriving Repr

/-- The process-wide context cache `pljs_context_HashTable` (cache.c:15),
modelled as an association list keyed by `user_id`. -/
abbrev CacheState := List (Oid × pljs_context_cache_value)

/-- `hash_search(…, HASH_FIND, …)` on an association list. -/
def cacheLookup {α : Type} : List (Oid × α) → Oid → Option α
  | [], _ => none
  | (k, v) :: rest, key => if k = key then some v else cacheLookup rest key

/-- `pljs_context_to_function_cache` (cache.c:251-275): fill a function
cache entry from a call context. -/
def pljs_context_to_function_cache (context : pljs_context) :
    pljs_function_cache_value :=
  { fn_oid := context.function.fn_oid
    user_id := context.function.user_id
    trigger := context.function.trigger
    prosrc := context.function.prosrc }

/-- `pljs_cache_context_add` (cache.c:67-104): `HASH_ENTER` the user's
slot; if an entry already exists (`found`) raise an internal error —
nothing is replaced — otherwise fill the new entry with the context and an
empty function table. -/
def pljs_cache_context_add (s : CacheState) (user_id : Oid) (ctx : Nat) :
    Except String CacheState :=
  match cacheLookup s user_id with
  | some _ => .error "a context cache entry already exists for user_id"
  | none =>
    .ok (s ++ [(user_id,
      { user_id := user_id, ctx := ctx, function_hash_table := [] })])

/-- `pljs_cache_context_remove` (cache.c:112-122): `HASH_REMOVE` the
user's slot (destroying its function table). -/
def pljs_cache_context_remove (s : CacheState) (user_id : Oid) : CacheState :=
  s.filter (fun p => p.1 ≠ user_id)

/-- `pljs_cache_context_find` (cache.c:130-135). -/
def pljs_cache_context_find (s : CacheState) (user_id : Oid) :
    Option pljs_context_cache_value :=
  cacheLookup s user_id

/-- `pljs_cache_function_add` (cache.c:144-182): find the user's context
(an internal error if absent), `HASH_ENTER` the function's slot in its
table; if an entry already exists raise an internal error — nothing is
replaced — otherwise fill the new entry from the context. -/
def pljs_cache_function_add (s : CacheState) (context : pljs_context) :
    Except String CacheState :=
  match cacheLookup s context.function.user_id with
  | none => .error "unable to find context for user"
  | some ctx_hvalue =>
    match cacheLookup ctx_hvalue.function_hash_table context.function.fn_oid with
    | some _ => .error "function cache entry already exists for oid"
    | none =>
      let entry := pljs_context_to_function_cache context
      let updated := { ctx_hvalue with
        function_hash_table :=
          ctx_hvalue.function_hash_table ++ [(context.function.fn_oid, entry)] }
      .ok (s.map (fun p =>
        if p.1 = context.function.user_id then (p.1, updated) else p))

/-- `pljs_cache_function_find` (cache.c:191-209). -/
def pljs_cache_function_find (s : CacheState) (user_id : Oid) (fn_oid : Oid) :
    Option pljs_function_cache_value :=
  match cacheLookup s user_id with
  | none => none
  | some ctx_hvalue => cacheLookup ctx_hvalue.function_hash_table fn_oid

/-- The states of the two caches reachable from process start:
`pljs_cache_init` (and `pljs_cache_reset`) start from empty tables, and
the state changes only through the successful cache operations (the error
paths raise before mutating anything). -/
inductive CacheReachable : CacheState → Prop where
  | init : CacheReachable []
  | context_add (s s' : CacheState) (user_id : Oid) (ctx : Nat) :
      CacheReachable s → pljs_cache_context_add s user_id ctx = .ok s' →
      CacheReachable s'
  | context_remove (s : CacheState) (user_id : Oid) :
      CacheReachable s → CacheReachable (pljs_cache_context_remove s user_id)
  | function_add (s s' : CacheState) (context : pljs_context) :
      CacheReachable s → pljs_cache_function_add s context = .ok s' →
      CacheReachable s'
  | reset (s : CacheState) : CacheReachable s → CacheReachable []

/-! ## Trigger result handling (pljs.c:873-1000) -/

/-- The trigger operation decoded from `TRIGGER_FIRED_BY_…`. -/
inductive TriggerOp where
  | insert
  | delete
  | update
  | truncate
  deriving DecidableEq, Repr

/-- The `TriggerData` fields `call_trigger` reads: the event's level and
operation and the row(s) it fired for (modelled as field lists of the
relation's row descriptor). -/
structure TriggerData where
  forRow : Bool
  op : TriggerOp
  trigtuple : List (Option Datum)
  newtuple : List (Option Datum)
  deriving Repr

/-- The result selection of `call_trigger` (pljs.c:873-1000), given the
value `ret` the script trigger function returned (the argument marshaling
and the `JS_Call` itself are not modelled; a script exception would raise
an execution error before this logic runs).  `result` starts as the
triggering tuple (`tg_trigtuple`, or `tg_newtuple` for UPDATE); a `null`
result — or any result of a statement-level trigger — makes the effective
row NULL; a non-`undefined` result is decoded as a composite row against
the relation's descriptor and substituted; `undefined` leaves the
triggering row unmodified. -/
def call_trigger (cat : Catalog) (td : TupleDesc) (trig : TriggerData)
    (ret : JSVal) : Except String (Option Datum) :=
  let initial : Option Datum :=
    if trig.forRow then
      match trig.op with
      | .insert => some (.record td trig.trigtuple)
      | .delete => some (.record td trig.trigtuple)
      | .update => some (.record td trig.newtuple)
      | .truncate => none
    else none
  if jsIsNull ret || !trig.forRow then
    .ok none
  else if !jsIsUndefined ret then do
    let type : pljs_type ← pljs_type_fill cat TRIGGEROID
    let d ← pljs_jsvalue_to_record cat type ret (some td)
    pure d
  else
    .ok initial

/-! ## A concrete catalog with the stock PostgreSQL builtin types -/

/-- The categories of the stock builtin types (`pg_type.typcategory`),
including the builtin array types with their element types.  `99001` is a
damaged array type whose element type cannot be resolved, for exercising
the fatal path of `pljs_type_fill`. -/
def stdCategory (t : Oid) : Char :=
  if t = BOOLOID then TYPCATEGORY_BOOLEAN
  else if t = INT2OID ∨ t = INT4OID ∨ t = INT8OID ∨ t = OIDOID ∨
          t = FLOAT4OID ∨ t = FLOAT8OID ∨ t = NUMERICOID then
    TYPCATEGORY_NUMERIC
  else if t = TEXTOID ∨ t = VARCHAROID ∨ t = BPCHAROID ∨ t = NAMEOID then
    TYPCATEGORY_STRING
  else if t = DATEOID ∨ t = TIMESTAMPOID ∨ t = TIMESTAMPTZOID then
    TYPCATEGORY_DATETIME
  else if t = 1000 ∨ t = 1001 ∨ t = 1003 ∨ t = 1005 ∨ t = 1007 ∨ t = 1009 ∨
          t = 1014 ∨ t = 1015 ∨ t = 1016 ∨ t = 1021 ∨ t = 1022 ∨ t = 1028 ∨
          t = 143 ∨ t = 1182 ∨ t = 1115 ∨ t = 1185 ∨ t = 1231 ∨ t = 199 ∨
          t = 3807 ∨ t = 99001 then
    TYPCATEGORY_ARRAY
  else if t = VOIDOID ∨ t = TRIGGEROID then TYPCATEGORY_PSEUDOTYPE
  else TYPCATEGORY_USER

/-- `get_element_type` over the stock builtin array types. -/
def stdElement (t : Oid) : Oid :=
  if t = 1000 then BOOLOID
  else if t = 1001 then BYTEAOID
  else if t = 1003 then NAMEOID
  else if t = 1005 then INT2OID
  else if t = 1007 then INT4OID
  else if t = 1009 then TEXTOID
  else if t = 1014 then BPCHAROID
  else if t = 1015 then VARCHAROID
  else if t = 1016 then INT8OID
  else if t = 1021 then FLOAT4OID
  else if t = 1022 then FLOAT8OID
  else if t = 1028 then OIDOID
  else if t = 143 then XMLOID
  else if t = 1182 then DATEOID
  else if t = 1115 then TIMESTAMPOID
  else if t = 1185 then TIMESTAMPTZOID
  else if t = 1231 then NUMERICOID
  else if t = 199 then JSONOID
  else if t = 3807 then JSONBOID
  else InvalidOid

/-- `typlen` of the stock builtin types (−1 for varlena). -/
def stdTyplen (t : Oid) : Int :=
  if t = BOOLOID then 1
  else if t = INT2OID then 2
  else if t = INT4OID ∨ t = OIDOID ∨ t = FLOAT4OID ∨ t = DATEOID then 4
  else if t = INT8OID ∨ t = FLOAT8OID ∨ t = TIMESTAMPOID ∨
          t = TIMESTAMPTZOID then 8
  else if t = NAMEOID then 64
  else -1

/-- `typbyval` of the stock builtin types. -/
def stdByval (t : Oid) : Bool :=
  t = BOOLOID ∨ t = INT2OID ∨ t = INT4OID ∨ t = INT8OID ∨ t = OIDOID ∨
  t = FLOAT4OID ∨ t = FLOAT8OID ∨ t = DATEOID ∨ t = TIMESTAMPOID ∨
  t = TIMESTAMPTZOID

/-- A concrete `Catalog` with the stock builtin types; the JSON
(de)serializer components are stand-ins (no verified property evaluates
them). -/
def stdCatalog : Catalog where
  category := stdCategory
  typlen := stdTyplen
  typbyval := stdByval
  typalign := fun _ => 'i'
  element := stdElement
  rowtype := fun _ => none
  parseJSON := fun _ => .null
  stringifyJSON := fun _ => ""
  jsonbCanon := fun s => s

/-! ## Helper lemmas -/

/-- Monadic bind on a successful `Except` computation. -/
@[simp] theorem exceptBind_ok {ε α β : Type} (a : α) (f : α → Except ε β) :
    (Except.ok a >>= f) = f a := rfl

/-- Monadic bind on a failed `Except` computation. -/
@[simp] theorem exceptBind_error {ε α β : Type} (e : ε)
    (f : α → Except ε β) : ((Except.error e : Except ε α) >>= f) =
    Except.error e := rfl

/-- `pure` on `Except` is `Except.ok`. -/
@[simp] theorem exceptPure {ε α : Type} (a : α) :
    (pure a : Except ε α) = Except.ok a := rfl

/-- `truncQ` is the identity on integers. -/
theorem truncQ_intCast (n : Int) : truncQ (n : ℚ) = n := by
  unfold truncQ
  split
  · exact Int.floor_intCast n
  · rw [show -(n : ℚ) = ((-n : Int) : ℚ) by push_cast; ring, Int.floor_intCast]
    omega

/-- In-range integers are fixed by signed wrapping. -/
theorem wrapSigned_eq_self {w : Nat} {n : Int} (hw : 1 ≤ w)
    (h1 : -(2 ^ (w - 1)) ≤ n) (h2 : n < 2 ^ (w - 1)) : wrapSigned w n = n := by
  unfold wrapSigned
  have hsplit : (2 : Int) ^ w = 2 ^ (w - 1) * 2 := by
    conv_lhs => rw [show w = (w - 1) + 1 by omega]
    rw [pow_succ]
  have hpos : (0 : Int) < 2 ^ (w - 1) := by positivity
  rw [Int.emod_eq_of_lt (by omega) (by omega)]
  omega

/-- In-range naturals are fixed by unsigned wrapping. -/
theorem wrapUnsigned_eq_self {w : Nat} {n : Int} (h1 : 0 ≤ n)
    (h2 : n < 2 ^ w) : (wrapUnsigned w n : Int) = n := by
  unfold wrapUnsigned
  have hpos : (0 : Int) < 2 ^ w := by positivity
  rw [Int.emod_eq_of_lt (by omega) (by omega)]
  omega

/-- `bitLenAux` ignores its fuel at `0`. -/
theorem bitLenAux_zero (fuel : Nat) : bitLenAux fuel 0 = 0 := by
  cases fuel <;> simp [bitLenAux]

/-- With enough fuel, `bitLenAux` brackets its argument between consecutive
powers of two. -/
theorem bitLenAux_spec : ∀ fuel n, 0 < n → n ≤ fuel →
    2 ^ (bitLenAux fuel n - 1) ≤ n ∧ n < 2 ^ bitLenAux fuel n := by
  intro fuel
  induction fuel with
  | zero => intro n h1 h2; omega
  | succ f ih =>
    intro n h1 h2
    rw [bitLenAux, if_neg (by omega)]
    by_cases hn : n = 1
    · subst hn
      simp [bitLenAux_zero]
    · obtain ⟨hl, hr⟩ := ih (n / 2) (by omega) (by omega)
      have hkpos : 0 < bitLenAux f (n / 2) := by
        by_contra hk0
        rw [Nat.eq_zero_of_not_pos hk0] at hr
        omega
      set k := bitLenAux f (n / 2) with hk
      have e1 : 2 ^ (k + 1 - 1) = 2 ^ (k - 1) * 2 := by
        rw [Nat.add_sub_cancel, ← pow_succ]
        congr 1
        omega
      have e2 : 2 ^ (k + 1) = 2 ^ k * 2 := by rw [pow_succ]
      constructor
      · rw [e1]; omega
      · rw [e2]; omega

/-- `bitLen n` brackets a positive `n` between consecutive powers of two. -/
theorem bitLen_spec {n : Nat} (h : 0 < n) :
    2 ^ (bitLen n - 1) ≤ n ∧ n < 2 ^ bitLen n :=
  bitLenAux_spec n n h le_rfl

/-- A positive number has at least one binary digit. -/
theorem bitLen_pos {n : Nat} (h : 0 < n) : 0 < bitLen n := by
  rcases bitLen_spec h with ⟨_, h2⟩
  by_contra h0
  rw [Nat.eq_zero_of_not_pos h0] at h2
  omega

/-- The absolute value of a rational as a quotient of naturals. -/
theorem abs_rat_eq (q : ℚ) : |q| = (q.num.natAbs : ℚ) / (q.den : ℚ) := by
  have hd : (0 : ℚ) < (q.den : ℚ) := by exact_mod_cast q.pos
  rw [Int.cast_natAbs]
  conv_lhs => rw [← Rat.num_div_den q]
  rw [abs_div, abs_of_pos hd, Int.cast_abs]

/-- `expOf` computes the binade: `2 ^ expOf q ≤ |q| < 2 ^ (expOf q + 1)`
for nonzero `q`. -/
theorem expOf_spec {q : ℚ} (hq : q ≠ 0) :
    (2 : ℚ) ^ expOf q ≤ |q| ∧ |q| < 2 ^ (expOf q + 1) := by
  have hnum : q.num ≠ 0 := Rat.num_ne_zero.mpr hq
  have ha : 0 < q.num.natAbs := Int.natAbs_pos.mpr hnum
  have hb : 0 < q.den := q.pos
  obtain ⟨ha1, ha2⟩ := bitLen_spec ha
  obtain ⟨hb1, hb2⟩ := bitLen_spec hb
  have hla := bitLen_pos ha
  have hlb := bitLen_pos hb
  have habs := abs_rat_eq q
  set a := q.num.natAbs with hadef
  set b := q.den with hbdef
  set la := bitLen a with hladef
  set lb := bitLen b with hlbdef
  have hbQ : (0 : ℚ) < (b : ℚ) := by exact_mod_cast hb
  have haQ : (0 : ℚ) < (a : ℚ) := by exact_mod_cast ha
  have hpow : ∀ m n : Nat, (2 : ℚ) ^ ((m : ℤ) - n) = 2 ^ m / 2 ^ n := by
    intro m n
    rw [zpow_sub₀ (by norm_num), zpow_natCast, zpow_natCast]
  have haQ2 : (a : ℚ) < 2 ^ la := by exact_mod_cast ha2
  have haQ1 : (2 : ℚ) ^ (la - 1) ≤ a := by exact_mod_cast ha1
  have hbQ2 : (b : ℚ) < 2 ^ lb := by exact_mod_cast hb2
  have hbQ1 : (2 : ℚ) ^ (lb - 1) ≤ b := by exact_mod_cast hb1
  have claimA : |q| < 2 ^ ((la : ℤ) - lb + 1) := by
    have he : ((la : ℤ) - lb + 1) = (la : ℤ) - ((lb - 1 : ℕ) : ℤ) := by
      push_cast [Nat.cast_sub hlb]
      ring
    rw [habs, he, hpow]
    rw [div_lt_div_iff₀ hbQ (by positivity)]
    calc (a : ℚ) * 2 ^ (lb - 1) < 2 ^ la * 2 ^ (lb - 1) := by
          apply mul_lt_mul_of_pos_right haQ2 (by positivity)
      _ ≤ 2 ^ la * b := by
          apply mul_le_mul_of_nonneg_left hbQ1 (by positivity)
  have claimB : (2 : ℚ) ^ ((la : ℤ) - lb - 1) < |q| := by
    have he : ((la : ℤ) - lb - 1) = ((la - 1 : ℕ) : ℤ) - (lb : ℤ) := by
      push_cast [Nat.cast_sub hla]
      ring
    rw [habs, he, hpow]
    rw [div_lt_div_iff₀ (by positivity) hbQ]
    calc (2 : ℚ) ^ (la - 1) * b ≤ (a : ℚ) * b := by
          apply mul_le_mul_of_nonneg_right haQ1 (by positivity)
      _ < a * 2 ^ lb := by
          apply mul_lt_mul_of_pos_left hbQ2 haQ
  have htest : (if bitLen q.den ≤ bitLen q.num.natAbs then
        decide (q.den * 2 ^ (bitLen q.num.natAbs - bitLen q.den) ≤
          q.num.natAbs)
      else decide (q.den ≤ q.num.natAbs *
        2 ^ (bitLen q.den - bitLen q.num.natAbs)) : Bool)
      = true ↔ (2 : ℚ) ^ ((la : ℤ) - lb) ≤ |q| := by
    by_cases hc : lb ≤ la
    · rw [if_pos (by rw [← hladef, ← hlbdef]; exact hc)]
      rw [decide_eq_true_iff]
      rw [habs]
      have he : ((la : ℤ) - lb) = ((la - lb : ℕ) : ℤ) := by
        push_cast [Nat.cast_sub hc]
        ring
      rw [he, zpow_natCast, le_div_iff₀ hbQ]
      constructor
      · intro h
        calc (2 : ℚ) ^ (la - lb) * b = (b * 2 ^ (la - lb) : ℕ) := by
              push_cast
              ring
          _ ≤ (a : ℚ) := by exact_mod_cast h
      · intro h
        have : ((b * 2 ^ (la - lb) : ℕ) : ℚ) ≤ a := by
          calc ((b * 2 ^ (la - lb) : ℕ) : ℚ) = 2 ^ (la - lb) * b := by
                push_cast
                ring
            _ ≤ (a : ℚ) := h
        exact_mod_cast this
    · rw [if_neg (by rw [← hladef, ← hlbdef]; exact hc)]
      rw [decide_eq_true_iff]
      rw [habs]
      have hc' : la ≤ lb := by omega
      have he : ((la : ℤ) - lb) = -((lb - la : ℕ) : ℤ) := by
        push_cast [Nat.cast_sub hc']
        ring
      rw [he, zpow_neg, zpow_natCast, inv_eq_one_div,
        div_le_div_iff₀ (by positivity) hbQ, one_mul]
      constructor
      · intro h
        calc (b : ℚ) = ((b : ℕ) : ℚ) := by norm_num
          _ ≤ ((a * 2 ^ (lb - la) : ℕ) : ℚ) := by exact_mod_cast h
          _ = (a : ℚ) * 2 ^ (lb - la) := by push_cast; ring
      · intro h
        have : (b : ℚ) ≤ ((a * 2 ^ (lb - la) : ℕ) : ℚ) := by
          calc (b : ℚ) ≤ (a : ℚ) * 2 ^ (lb - la) := h
            _ = ((a * 2 ^ (lb - la) : ℕ) : ℚ) := by push_cast; ring
        exact_mod_cast this
  rw [expOf]
  by_cases hok : (if bitLen q.den ≤ bitLen q.num.natAbs then
        decide (q.den * 2 ^ (bitLen q.num.natAbs - bitLen q.den) ≤
          q.num.natAbs)
      else decide (q.den ≤ q.num.natAbs *
        2 ^ (bitLen q.den - bitLen q.num.natAbs)) : Bool) = true
  · rw [if_pos hok]
    refine ⟨htest.mp hok, ?_⟩
    rw [← hladef, ← hlbdef]
    exact claimA
  · rw [if_neg hok]
    constructor
    · rw [← hladef, ← hlbdef]
      exact le_of_lt claimB
    · rw [← hladef, ← hlbdef]
      have hnot : ¬ (2 : ℚ) ^ ((la : ℤ) - lb) ≤ |q| :=
        fun h => hok (htest.mpr h)
      have h2 : |q| < 2 ^ ((la : ℤ) - lb) := lt_of_not_le hnot
      have he : (la : ℤ) - lb - 1 + 1 = (la : ℤ) - lb := by ring
      rw [he]
      exact h2

/-- The binade exponent is unique. -/
theorem expOf_eq {q : ℚ} {e : ℤ} (hq : q ≠ 0)
    (h1 : (2 : ℚ) ^ e ≤ |q|) (h2 : |q| < 2 ^ (e + 1)) : expOf q = e := by
  obtain ⟨g1, g2⟩ := expOf_spec hq
  by_contra hne
  rcases lt_or_gt_of_ne hne with h | h
  · have hle : (2 : ℚ) ^ (expOf q + 1) ≤ 2 ^ e :=
      zpow_le_zpow_right₀ (by norm_num) (by omega)
    linarith
  · have hle : (2 : ℚ) ^ (e + 1) ≤ 2 ^ expOf q :=
      zpow_le_zpow_right₀ (by norm_num) (by omega)
    linarith

/-- Rounding an integer to the nearest integer is the identity. -/
theorem rne_intCast (n : ℤ) : rne (n : ℚ) = n := by
  rw [rne, Int.floor_intCast, sub_self, if_pos (by norm_num)]

/-- `roundDouble` fixes zero. -/
theorem roundDouble_zero : roundDouble 0 = 0 := by
  rw [roundDouble, if_pos rfl]

/-- A dyadic value with at most 53 significant bits is exactly
representable: `roundDouble` fixes `m * 2 ^ j` whenever `|m| < 2 ^ 53`. -/
theorem roundDouble_dyadic {m : ℤ} (j : ℕ) (h : |m| < 2 ^ 53) :
    roundDouble ((m : ℚ) * 2 ^ j) = (m : ℚ) * 2 ^ j := by
  by_cases hm : m = 0
  · subst hm
    simp [roundDouble_zero]
  have hq : ((m : ℚ) * 2 ^ j) ≠ 0 := by
    simp [hm]
  have habs : |(m : ℚ) * 2 ^ j| = |(m : ℚ)| * 2 ^ j := by
    rw [abs_mul, abs_of_pos (by positivity : (0:ℚ) < 2 ^ j)]
  have hmQ : |(m : ℚ)| < 2 ^ 53 := by
    rw [← Int.cast_abs]
    exact_mod_cast h
  have hub : |(m : ℚ) * 2 ^ j| < 2 ^ ((j : ℤ) + 53) := by
    have hcast : (2 : ℚ) ^ ((j : ℤ) + 53) = 2 ^ (j + 53 : ℕ) := by
      rw [show ((j : ℤ) + 53) = ((j + 53 : ℕ) : ℤ) by push_cast; ring,
        zpow_natCast]
    rw [habs, hcast, pow_add]
    calc |(m : ℚ)| * 2 ^ j < 2 ^ 53 * 2 ^ j := by
          apply mul_lt_mul_of_pos_right hmQ (by positivity)
      _ = 2 ^ j * 2 ^ 53 := by ring
  obtain ⟨g1, g2⟩ := expOf_spec hq
  have hE : expOf ((m : ℚ) * 2 ^ j) ≤ (j : ℤ) + 52 := by
    by_contra hcon
    have hge : (j : ℤ) + 53 ≤ expOf ((m : ℚ) * 2 ^ j) := by omega
    have h3 : (2 : ℚ) ^ ((j : ℤ) + 53) ≤ 2 ^ expOf ((m : ℚ) * 2 ^ j) :=
      zpow_le_zpow_right₀ (by norm_num) hge
    linarith
  set E := expOf ((m : ℚ) * 2 ^ j) with hEdef
  rw [roundDouble, if_neg hq]
  by_cases hbr : 52 ≤ E
  · rw [if_pos hbr]
    have hint : (m : ℚ) * 2 ^ j / 2 ^ (E - 52).toNat =
        ((m * 2 ^ (j - (E - 52).toNat) : ℤ) : ℚ) := by
      have hje : (E - 52).toNat ≤ j := by omega
      push_cast
      rw [pow_sub₀ (2 : ℚ) (by norm_num) hje]
      field_simp
    rw [hint, rne_intCast]
    rw [← hint]
    field_simp
  · rw [if_neg hbr]
    have hint : (m : ℚ) * 2 ^ j * 2 ^ (52 - E).toNat =
        ((m * 2 ^ (j + (52 - E).toNat) : ℤ) : ℚ) := by
      push_cast
      rw [pow_add]
      ring
    rw [hint, rne_intCast, ← hint]
    field_simp

/-- Integers below 2^53 are exactly representable. -/
theorem roundDouble_int {m : ℤ} (h : |m| < 2 ^ 53) :
    roundDouble (m : ℚ) = (m : ℚ) := by
  have hd := roundDouble_dyadic 0 h
  simpa using hd

/-- Unfolding `roundDouble` in the large-binade branch. -/
theorem roundDouble_eq_div (k : ℕ) {q : ℚ} (hq : q ≠ 0)
    (h : expOf q = 52 + k) :
    roundDouble q = (rne (q / 2 ^ k) : ℚ) * 2 ^ k := by
  rw [roundDouble, if_neg hq, if_pos (by omega)]
  have hk : (expOf q - 52).toNat = k := by omega
  rw [hk]

/-- Unfolding `roundDouble` in the small-binade branch. -/
theorem roundDouble_eq_mul (k : ℕ) {q : ℚ} (hq : q ≠ 0)
    (h : expOf q = 52 - (k : ℤ)) (hk : 0 < k) :
    roundDouble q = (rne (q * 2 ^ k) : ℚ) / 2 ^ k := by
  rw [roundDouble, if_neg hq, if_neg (by omega)]
  have hk2 : (52 - expOf q).toNat = k := by omega
  rw [hk2]

/-- `rne` on a value whose fractional part is below a half. -/
theorem rne_of_lt {x : ℚ} {n : ℤ} (hf : ⌊x⌋ = n) (h : x - n < 1 / 2) :
    rne x = n := by
  rw [rne, hf, if_pos h]

/-- `rne` on a value whose fractional part is above a half. -/
theorem rne_of_gt {x : ℚ} {n : ℤ} (hf : ⌊x⌋ = n) (h : 1 / 2 < x - n) :
    rne x = n + 1 := by
  rw [rne, hf, if_neg (by linarith), if_pos h]

/-- `rne` at an exact tie with an even floor. -/
theorem rne_of_tie_even {x : ℚ} {n : ℤ} (hf : ⌊x⌋ = n) (h : x - n = 1 / 2)
    (he : n % 2 = 0) : rne x = n := by
  rw [rne, hf, h, if_neg (by norm_num), if_neg (by norm_num), if_pos he]

/-- In the exact range, `date_to_epoch` computes the ideal whole-millisecond
epoch: every double operation is exact while `|d| ≤ 854015929` (the
largest day count whose microsecond product has at most 53 significant
bits). -/
theorem date_to_epoch_exact {d : Int} (h1 : -854015929 ≤ d)
    (h2 : d ≤ 854015929) :
    date_to_epoch d = (((d + 10957) * 86400000 : Int) : ℚ) := by
  rw [date_to_epoch, USECS_PER_DAY]
  have e1 : ((d : ℚ) * 86400000000) = ((d * 10546875 : ℤ) : ℚ) * 2 ^ (13:ℕ) := by
    push_cast
    ring
  have p53 : (2:ℤ) ^ 53 = 9007199254740992 := by norm_num
  rw [e1, roundDouble_dyadic 13 (by rw [abs_lt, p53]; omega)]
  have e2 : ((d * 10546875 : ℤ) : ℚ) * 2 ^ (13:ℕ) / 1000 =
      ((d * 84375 : ℤ) : ℚ) * 2 ^ (10:ℕ) := by
    rw [div_eq_iff (by norm_num : (1000:ℚ) ≠ 0)]
    push_cast
    ring
  rw [e2, roundDouble_dyadic 10 (by rw [abs_lt, p53]; omega)]
  have e3 : ((d * 84375 : ℤ) : ℚ) * 2 ^ (10:ℕ) + epochOffsetMs =
      (((d + 10957) * 84375 : ℤ) : ℚ) * 2 ^ (10:ℕ) := by
    rw [epochOffsetMs]
    push_cast
    ring
  rw [e3, roundDouble_dyadic 10 (by rw [abs_lt, p53]; omega)]
  push_cast
  ring

/-- In the exact range, `epoch_to_date` restores the day count from the
ideal whole-millisecond epoch. -/
theorem epoch_to_date_exact {d : Int} (h1 : -854015929 ≤ d)
    (h2 : d ≤ 854015929) :
    epoch_to_date (((d + 10957) * 86400000 : Int) : ℚ) = d := by
  rw [epoch_to_date, USECS_PER_DAY]
  have p53 : (2:ℤ) ^ 53 = 9007199254740992 := by norm_num
  have e1 : (((d + 10957) * 86400000 : Int) : ℚ) - epochOffsetMs =
      ((d * 84375 : ℤ) : ℚ) * 2 ^ (10:ℕ) := by
    rw [epochOffsetMs]
    push_cast
    ring
  rw [e1, roundDouble_dyadic 10 (by rw [abs_lt, p53]; omega)]
  have e2 : ((d * 84375 : ℤ) : ℚ) * 2 ^ (10:ℕ) * 1000 =
      ((d * 10546875 : ℤ) : ℚ) * 2 ^ (13:ℕ) := by
    push_cast
    ring
  rw [e2, roundDouble_dyadic 13 (by rw [abs_lt, p53]; omega)]
  have e3 : ((d * 10546875 : ℤ) : ℚ) * 2 ^ (13:ℕ) / 86400000000 = (d : ℚ) := by
    rw [div_eq_iff (by norm_num : (86400000000:ℚ) ≠ 0)]
    push_cast
    ring
  rw [e3, roundDouble_int (by rw [abs_lt, p53]; omega), truncQ_intCast]

/-- For whole-millisecond timestamps within ±2^53/125 µs, every double
operation of `timestamptz_to_epoch` is exact. -/
theorem timestamptz_to_epoch_exact {k : Int} (h1 : -72057594037927 ≤ k)
    (h2 : k ≤ 72057594037927) :
    timestamptz_to_epoch (1000 * k) = ((k + 946684800000 : Int) : ℚ) := by
  rw [timestamptz_to_epoch]
  have p53 : (2:ℤ) ^ 53 = 9007199254740992 := by norm_num
  have e1 : ((1000 * k : ℤ) : ℚ) = ((k * 125 : ℤ) : ℚ) * 2 ^ (3:ℕ) := by
    push_cast
    ring
  rw [e1, roundDouble_dyadic 3 (by rw [abs_lt, p53]; omega)]
  have e2 : ((k * 125 : ℤ) : ℚ) * 2 ^ (3:ℕ) / 1000 = (k : ℚ) := by
    rw [div_eq_iff (by norm_num : (1000:ℚ) ≠ 0)]
    push_cast
    ring
  rw [e2, roundDouble_int (by rw [abs_lt, p53]; omega)]
  have e3 : (k : ℚ) + epochOffsetMs = ((k + 946684800000 : ℤ) : ℚ) := by
    rw [epochOffsetMs]
    push_cast
    ring
  rw [e3, roundDouble_int (by rw [abs_lt, p53]; omega)]

/-- `epoch_to_timestamptz` restores the whole-millisecond microsecond count
from an integer epoch within the `Date` range. -/
theorem epoch_to_timestamptz_exact {k : Int} (h1 : -8640000000000000 ≤ k)
    (h2 : k ≤ 8640000000000000) :
    epoch_to_timestamptz ((k + 946684800000 : Int) : ℚ) = 1000 * k := by
  rw [epoch_to_timestamptz]
  have p53 : (2:ℤ) ^ 53 = 9007199254740992 := by norm_num
  have e1 : ((k + 946684800000 : Int) : ℚ) - epochOffsetMs = (k : ℚ) := by
    rw [epochOffsetMs]
    push_cast
    ring
  rw [e1, roundDouble_int (by rw [abs_lt, p53]; omega), truncQ_intCast]
  ring

/-- `JS_NewDate` on an integral epoch within the `Date` range stores it
unchanged. -/
theorem jsNewDate_int {n : Int} (h1 : -8640000000000000 ≤ n)
    (h2 : n ≤ 8640000000000000) :
    jsNewDate ((n : Int) : ℚ) = .date ((n : Int) : ℚ) := by
  rw [jsNewDate, if_pos ⟨by exact_mod_cast h1, by exact_mod_cast h2⟩,
    truncQ_intCast]

/-- fl(854015931 · 86400000000): the product's odd part exceeds 2^53 and
ties to even, rounding 8192 down. -/
theorem rd_date_mul : roundDouble (73786976438400000000 : ℚ) =
    73786976438399991808 := by
  have hq : (73786976438400000000 : ℚ) ≠ 0 := by norm_num
  have he : expOf (73786976438400000000 : ℚ) = 66 := by
    apply expOf_eq hq <;> rw [abs_of_pos (by norm_num)] <;> norm_num
  rw [roundDouble_eq_div 14 hq (by rw [he]; norm_num)]
  have hf : ⌊(73786976438400000000 : ℚ) / 2 ^ 14⌋ = 4503599636132812 := by
    rw [Int.floor_eq_iff]
    constructor <;> norm_num
  rw [rne_of_tie_even hf (by push_cast; norm_num) (by norm_num)]
  norm_num

/-- fl of the rounded product divided by 1000: rounds down. -/
theorem rd_date_div : roundDouble ((73786976438399991808 : ℚ) / 1000) =
    73786976438399984 := by
  have hq : ((73786976438399991808 : ℚ) / 1000) ≠ 0 := by norm_num
  have he : expOf ((73786976438399991808 : ℚ) / 1000) = 56 := by
    apply expOf_eq hq <;> rw [abs_of_pos (by norm_num)] <;> norm_num
  rw [roundDouble_eq_div 4 hq (by rw [he]; norm_num)]
  have hf : ⌊(73786976438399991808 : ℚ) / 1000 / 2 ^ 4⌋ = 4611686027399999 := by
    rw [Int.floor_eq_iff]
    constructor <;> norm_num
  rw [rne_of_lt hf (by push_cast; norm_num)]
  norm_num

/-- The offset addition of `date_to_epoch` at day 854015931 is exact. -/
theorem rd_date_add : roundDouble ((73786976438399984 : ℚ) + epochOffsetMs) =
    73787923123199984 := by
  have e : (73786976438399984 : ℚ) + epochOffsetMs =
      ((4611745195199999 : ℤ) : ℚ) * 2 ^ (4:ℕ) := by
    rw [epochOffsetMs]
    push_cast
    norm_num
  rw [e, roundDouble_dyadic 4 (by norm_num)]
  push_cast
  norm_num

/-- The offset subtraction of `epoch_to_date` at that epoch is exact. -/
theorem rd_date_sub : roundDouble ((73787923123199984 : ℚ) - epochOffsetMs) =
    73786976438399984 := by
  have e : (73787923123199984 : ℚ) - epochOffsetMs =
      ((4611686027399999 : ℤ) : ℚ) * 2 ^ (4:ℕ) := by
    rw [epochOffsetMs]
    push_cast
    norm_num
  rw [e, roundDouble_dyadic 4 (by norm_num)]
  push_cast
  norm_num

/-- fl of the recovered millisecond count times 1000: rounds up. -/
theorem rd_date_mul2 : roundDouble ((73786976438399984 : ℚ) * 1000) =
    73786976438399991808 := by
  have hq : ((73786976438399984 : ℚ) * 1000) ≠ 0 := by norm_num
  have he : expOf ((73786976438399984 : ℚ) * 1000) = 66 := by
    apply expOf_eq hq <;> rw [abs_of_pos (by norm_num)] <;> norm_num
  rw [roundDouble_eq_div 14 hq (by rw [he]; norm_num)]
  have hf : ⌊(73786976438399984 : ℚ) * 1000 / 2 ^ 14⌋ = 4503599636132811 := by
    rw [Int.floor_eq_iff]
    constructor <;> norm_num
  rw [rne_of_gt hf (by push_cast; norm_num)]
  push_cast
  norm_num

/-- fl of the final division by `USECS_PER_DAY`: lands strictly below the
original day count. -/
theorem rd_date_div2 : roundDouble ((73786976438399991808 : ℚ) / 86400000000) =
    7164004870914047 / 2 ^ 23 := by
  have hq : ((73786976438399991808 : ℚ) / 86400000000) ≠ 0 := by norm_num
  have he : expOf ((73786976438399991808 : ℚ) / 86400000000) = 29 := by
    apply expOf_eq hq <;> rw [abs_of_pos (by norm_num)] <;> norm_num
  rw [roundDouble_eq_mul 23 hq (by rw [he]; norm_num) (by norm_num)]
  have hf : ⌊(73786976438399991808 : ℚ) / 86400000000 * 2 ^ 23⌋ =
      7164004870914047 := by
    rw [Int.floor_eq_iff]
    constructor <;> norm_num
  rw [rne_of_lt hf (by push_cast; norm_num)]
  norm_num

/-- C10 counterexample: at the valid `DateADT` day count 854015931 the
claimed identity fails — the microsecond product `854015931 · 86400000000`
has 54 significant bits, the double arithmetic rounds, and the recovered
epoch re-divides to just below the original day count, which the
`(DateADT)` truncation then drops to 854015930. -/
theorem date_epoch_identity_fails :
    epoch_to_date (date_to_epoch 854015931) = 854015930 ∧
    (854015930 : Int) ≠ 854015931 := by
  refine ⟨?_, by norm_num⟩
  have hstep : date_to_epoch 854015931 = 73787923123199984 := by
    rw [date_to_epoch, USECS_PER_DAY]
    rw [show ((854015931 : ℤ) : ℚ) * 86400000000 = 73786976438400000000 by
      push_cast; norm_num]
    rw [rd_date_mul, rd_date_div, rd_date_add]
  rw [hstep, epoch_to_date, USECS_PER_DAY, rd_date_sub, rd_date_mul2,
    rd_date_div2]
  rw [truncQ, if_pos (by positivity)]
  rw [Int.floor_eq_iff]
  constructor <;> norm_num

/-- C10 (amended): converting a date to a Javascript epoch in milliseconds
with `date_to_epoch` and back with `epoch_to_date` is the identity for
every day count of magnitude at most 854015929 — the range in which every
double operation of both functions is exact (the full `DateADT` range is
not preserved: see the counterexample at 854015931). -/
theorem date_epoch_round_trip (d : Int) (h1 : -854015929 ≤ d)
    (h2 : d ≤ 854015929) :
    epoch_to_date (date_to_epoch d) = d ∧
    date_to_epoch d = (((d + 10957) * 86400000 : Int) : ℚ) := by
  refine ⟨?_, date_to_epoch_exact h1 h2⟩
  rw [date_to_epoch_exact h1 h2, epoch_to_date_exact h1 h2]

/-- C10 witness: the identity at the largest day count of the exact range. -/
theorem date_epoch_round_trip_witness :
    epoch_to_date (date_to_epoch 854015929) = 854015929 :=
  (date_epoch_round_trip 854015929 (by norm_num) (by norm_num)).1

/-- C8: `pljs_type_fill` on an array-category type leaves the element type
id in `typid`, re-derives length/by-value/alignment from the element, and
sets `is_composite` from the element's category; an unresolvable element
type is a fatal error; a pseudo-category type is marked composite. -/
theorem type_fill_array_pseudo (cat : Catalog) (t : Oid) :
    (cat.category t = TYPCATEGORY_ARRAY → cat.element t = InvalidOid →
      pljs_type_fill cat t = .error "cannot determine element type of array")
  ∧ (cat.category t = TYPCATEGORY_ARRAY → cat.element t ≠ InvalidOid →
      pljs_type_fill cat t = .ok
        { typid := cat.element t, length := cat.typlen (cat.element t),
          byval := cat.typbyval (cat.element t),
          align := cat.typalign (cat.element t),
          category := TYPCATEGORY_ARRAY,
          is_composite :=
            cat.category (cat.element t) = TYPCATEGORY_COMPOSITE })
  ∧ (cat.category t = TYPCATEGORY_PSEUDOTYPE →
      pljs_type_fill cat t = .ok
        { typid := t, length := cat.typlen t, byval := cat.typbyval t,
          align := cat.typalign t, category := TYPCATEGORY_PSEUDOTYPE,
          is_composite := true }) := by
  refine ⟨?_, ?_, ?_⟩
  · intro hcat helem
    simp [pljs_type_fill, hcat, helem]
  · intro hcat helem
    simp [pljs_type_fill, hcat, helem]
  · intro hcat
    simp [pljs_type_fill, hcat]
    intro hfalse
    exact absurd hfalse (by decide)

/-- C8 witness: the three branches at concrete types of the stock catalog —
`int4[]` (1007), the damaged array type 99001, and the pseudo type
`void`. -/
theorem type_fill_array_pseudo_witness :
    pljs_type_fill stdCatalog 99001 = .error "cannot determine element type of array"
  ∧ pljs_type_fill stdCatalog 1007 = .ok
      { typid := INT4OID, length := 4, byval := true, align := 'i',
        category := TYPCATEGORY_ARRAY, is_composite := false }
  ∧ pljs_type_fill stdCatalog VOIDOID = .ok
      { typid := VOIDOID, length := -1, byval := false, align := 'i',
        category := TYPCATEGORY_PSEUDOTYPE, is_composite := true } := by
  refine ⟨?_, ?_, ?_⟩
  · exact (type_fill_array_pseudo stdCatalog 99001).1 (by decide) (by decide)
  · have h := (type_fill_array_pseudo stdCatalog 1007).2.1 (by decide) (by decide)
    rw [h]
    rfl
  · have h := (type_fill_array_pseudo stdCatalog VOIDOID).2.2 (by decide)
    rw [h]
    rfl

/-- C5: a target type of array category given a non-array script value is
rejected by `pljs_jsvalue_to_datum` with the type-mismatch error — the
scalar is never silently wrapped into a one-element array. -/
theorem array_target_rejects_non_array (cat : Catalog) (rettype : Oid)
    (val : JSVal) (hcat : cat.category rettype = TYPCATEGORY_ARRAY)
    (helem : cat.element rettype ≠ InvalidOid)
    (hval : jsIsArray val = false) :
    pljs_jsvalue_to_datum cat rettype val = .error "value is not an Array" := by
  rw [pljs_jsvalue_to_datum]
  rw [show pljs_type_fill cat rettype = .ok
    { typid := cat.element rettype, length := cat.typlen (cat.element rettype),
      byval := cat.typbyval (cat.element rettype),
      align := cat.typalign (cat.element rettype),
      category := TYPCATEGORY_ARRAY,
      is_composite :=
        cat.category (cat.element rettype) = TYPCATEGORY_COMPOSITE } by
    simp [pljs_type_fill, hcat, helem]]
  simp [hval]

/-- C5 witness: a `text[]` (1009) parameter given the scalar string
`"x"` raises the type-mismatch error. -/
theorem array_target_rejects_non_array_witness :
    pljs_jsvalue_to_datum stdCatalog 1009 (JSVal.str "x") =
      .error "value is not an Array" :=
  array_target_rejects_non_array stdCatalog 1009 (JSVal.str "x")
    (by decide) (by decide) (by decide)

/-- A key is absent from an association list exactly when its lookup
fails. -/
theorem cacheLookup_eq_none {α : Type} (s : List (Oid × α)) (k : Oid) :
    cacheLookup s k = none ↔ k ∉ s.map Prod.fst := by
  induction s with
  | nil => simp [cacheLookup]
  | cons p rest ih =>
    obtain ⟨k', v⟩ := p
    by_cases h : k' = k
    · subst h
      simp [cacheLookup]
    · simp only [cacheLookup, if_neg h, List.map_cons, List.mem_cons, ih]
      constructor
      · rintro hk (he | hm)
        · exact h he.symm
        · exact hk hm
      · intro hk hm
        exact hk (Or.inr hm)

/-- With pairwise-distinct keys, every member of an association list is
found by looking its key up. -/
theorem cacheLookup_of_mem_nodup {α : Type} {s : List (Oid × α)}
    (hnd : (s.map Prod.fst).Nodup) {p : Oid × α} (hp : p ∈ s) :
    cacheLookup s p.1 = some p.2 := by
  induction s with
  | nil => cases hp
  | cons q rest ih =>
    obtain ⟨k', v⟩ := q
    rcases List.mem_cons.mp hp with h | h
    · subst h
      simp [cacheLookup]
    · have hk : k' ≠ p.1 := by
        intro he
        have : p.1 ∈ rest.map Prod.fst := List.mem_map_of_mem Prod.fst h
        rw [List.map_cons] at hnd
        exact (List.nodup_cons.mp hnd).1 (he ▸ this)
      simp only [cacheLookup, if_neg hk]
      exact ih (List.nodup_cons.mp (List.map_cons Prod.fst _ _ ▸ hnd)).2 h

/-- The two cache invariants of the claim, as predicates on a state: at
most one context entry per user id, and at most one function entry per
function oid inside each user's table. -/
def CacheWellFormed (s : CacheState) : Prop :=
  (s.map Prod.fst).Nodup ∧
  ∀ p ∈ s, (p.2.function_hash_table.map Prod.fst).Nodup

/-- Every reachable state of the two caches is well formed: the successful
operations preserve key uniqueness at both levels. -/
theorem cacheReachable_wellFormed {s : CacheState} (h : CacheReachable s) :
    CacheWellFormed s := by
  induction h with
  | init => exact ⟨List.nodup_nil, by simp⟩
  | context_add s s' uid ctx hr hok ih =>
    unfold pljs_cache_context_add at hok
    cases hfind : cacheLookup s uid with
    | some v => rw [hfind] at hok; cases hok
    | none =>
      rw [hfind] at hok
      injection hok with hs'
      subst hs'
      obtain ⟨h1, h2⟩ := ih
      constructor
      · rw [List.map_append]
        rw [List.nodup_append]
        refine ⟨h1, by simp, ?_⟩
        intro a ha hb
        simp at hb
        exact (cacheLookup_eq_none s uid).mp hfind (hb ▸ ha)
      · intro p hp
        rcases List.mem_append.mp hp with hmem | hmem
        · exact h2 p hmem
        · simp at hmem
          subst hmem
          simp
  | context_remove s uid hr ih =>
    obtain ⟨h1, h2⟩ := ih
    constructor
    · exact h1.sublist (List.Sublist.map Prod.fst (List.filter_sublist s))
    · intro p hp
      exact h2 p (List.mem_of_mem_filter hp)
  | function_add s s' context hr hok ih =>
    unfold pljs_cache_function_add at hok
    obtain ⟨h1, h2⟩ := ih
    split at hok
    · cases hok
    · rename_i ctxv hfind
      split at hok
      · cases hok
      · rename_i hfnd
        injection hok with hs'
        subst hs'
        constructor
        · rw [List.map_map]
          have : (Prod.fst ∘ fun p : Oid × pljs_context_cache_value =>
              if p.1 = context.function.user_id then
                (p.1, { ctxv with function_hash_table :=
                  ctxv.function_hash_table ++
                    [(context.function.fn_oid,
                      pljs_context_to_function_cache context)] })
              else p) = Prod.fst := by
            funext p
            by_cases hp : p.1 = context.function.user_id <;> simp [hp]
          rw [this]
          exact h1
        · intro p hp
          obtain ⟨q, hq, hpq⟩ := List.mem_map.mp hp
          by_cases hqu : q.1 = context.function.user_id
          · rw [if_pos hqu] at hpq
            have hqv : q.2 = ctxv := by
              have := cacheLookup_of_mem_nodup h1 hq
              rw [hqu, hfind] at this
              exact (Option.some.inj this).symm
            subst hpq
            simp only
            rw [List.map_append]
            rw [List.nodup_append]
            refine ⟨hqv ▸ h2 q hq, by simp, ?_⟩
            intro a ha hb
            simp at hb
            exact (cacheLookup_eq_none _ _).mp hfnd (hb ▸ ha)
          · rw [if_neg hqu] at hpq
            subst hpq
            exact h2 q hq
  | reset s hr ih => exact ⟨List.nodup_nil, by simp⟩

/-- C2: at every reachable state of the two caches there is at most one
cached context per user id and at most one compiled-function entry per
(user id, function oid); adding a context for a user that already has one,
or a function entry that already exists, raises an error instead of
replacing the entry. -/
theorem cache_uniqueness (s : CacheState) (h : CacheReachable s) :
    ((s.map Prod.fst).Nodup ∧
      ∀ p ∈ s, (p.2.function_hash_table.map Prod.fst).Nodup)
  ∧ (∀ user_id ctx v, pljs_cache_context_find s user_id = some v →
      pljs_cache_context_add s user_id ctx =
        .error "a context cache entry already exists for user_id")
  ∧ (∀ context v,
      pljs_cache_function_find s context.function.user_id
          context.function.fn_oid = some v →
      pljs_cache_function_add s context =
        .error "function cache entry already exists for oid") := by
  refine ⟨cacheReachable_wellFormed h, ?_, ?_⟩
  · intro user_id ctx v hfind
    unfold pljs_cache_context_find at hfind
    unfold pljs_cache_context_add
    rw [hfind]
  · intro context v hfind
    unfold pljs_cache_function_find at hfind
    split at hfind
    · cases hfind
    · rename_i ctxv heq
      unfold pljs_cache_function_add
      split
      · rename_i heq2
        rw [heq] at heq2
        cases heq2
      · rename_i ctxv2 heq2
        rw [heq] at heq2
        injection heq2 with he
        subst he
        split
        · rfl
        · rename_i heq3
          rw [hfind] at heq3
          cases heq3

/-- A demonstration function/context pair for exercising the cache. -/
def demoContext : pljs_context :=
  { ctx := 1,
    function := { fn_oid := 42, user_id := 7, trigger := false,
                  prosrc := "return 1" } }

/-- The cache state after adding a context for user 7 and caching function
42 in it. -/
def demoState : CacheState :=
  [(7, { user_id := 7, ctx := 1,
         function_hash_table :=
           [(42, pljs_context_to_function_cache demoContext)] })]

/-- C2 witness: the invariants and duplicate-rejection at the concrete
reachable state `demoState`. -/
theorem cache_uniqueness_witness :
    (((demoState.map Prod.fst).Nodup ∧
      ∀ p ∈ demoState, (p.2.function_hash_table.map Prod.fst).Nodup)
  ∧ (∀ user_id ctx v, pljs_cache_context_find demoState user_id = some v →
      pljs_cache_context_add demoState user_id ctx =
        .error "a context cache entry already exists for user_id")
  ∧ (∀ context v,
      pljs_cache_function_find demoState context.function.user_id
          context.function.fn_oid = some v →
      pljs_cache_function_add demoState context =
        .error "function cache entry already exists for oid")) :=
  cache_uniqueness demoState
    (CacheReachable.function_add _ demoState demoContext
      (CacheReachable.context_add [] _ 7 1 CacheReachable.init rfl) rfl)

/-- Iterated invocation of the emit-row primitive, for stating the FIFO
property of the result buffer. -/
def run_return_next (cat : Catalog) (st : pljs_return_state) :
    List JSVal → Except String pljs_return_state
  | [] => .ok st
  | a :: rest => do
      let st' ← pljs_return_next cat (some st) a
      run_return_next cat st' rest

/-- A successful sequence of composite emit-row calls appends exactly the
corresponding rows, in call order. -/
theorem run_return_next_appends (cat : Catalog) :
    ∀ (args : List JSVal) (rows : List (List (Option Datum)))
      (st : pljs_return_state), st.is_composite = true →
    List.Forall₂ (fun a row =>
      jsIsObject a = true ∧
      pljs_jsvalue_object_contains_all_column_names a st.tuple_desc = true ∧
      pljs_jsvalue_to_datums cat st.tuple_desc a = .ok row) args rows →
    run_return_next cat st args =
      .ok { st with tuple_store := st.tuple_store ++ rows } := by
  intro args
  induction args with
  | nil =>
    intro rows st hcomp hf
    cases hf
    simp [run_return_next]
  | cons a rest ih =>
    intro rows st hcomp hf
    cases hf with
    | cons hhead htail =>
      rename_i row rows'
      obtain ⟨hobj, hcols, hrow⟩ := hhead
      rw [run_return_next]
      rw [show pljs_return_next cat (some st) a =
          .ok { st with tuple_store := st.tuple_store ++ [row] } by
        simp [pljs_return_next, hcomp, hobj, hcols, hrow]]
      rw [exceptBind_ok]
      rw [ih rows' { st with tuple_store := st.tuple_store ++ [row] }
        hcomp htail]
      simp

/-- C3: during a composite set-returning call, `pljs.return_next` raises
an error (appending nothing) when there is no active return state, when
the argument is not a script object, or when the argument object lacks
the name of a declared non-dropped column; otherwise it appends exactly
one row to the result buffer, and successive successful calls append
their rows in call (FIFO) order. -/
theorem return_next_contract (cat : Catalog) (st : pljs_return_state)
    (hcomp : st.is_composite = true) :
    (∀ arg, pljs_return_next cat none arg =
      .error "return_next called in context that cannot accept a set")
  ∧ (∀ arg, jsIsObject arg = false →
      pljs_return_next cat (some st) arg = .error "argument must be an object")
  ∧ (∀ arg, jsIsObject arg = true →
      pljs_jsvalue_object_contains_all_column_names arg st.tuple_desc = false →
      pljs_return_next cat (some st) arg =
        .error "field name / property name mismatch")
  ∧ (∀ arg row, jsIsObject arg = true →
      pljs_jsvalue_object_contains_all_column_names arg st.tuple_desc = true →
      pljs_jsvalue_to_datums cat st.tuple_desc arg = .ok row →
      pljs_return_next cat (some st) arg =
        .ok { st with tuple_store := st.tuple_store ++ [row] })
  ∧ (∀ args rows, List.Forall₂ (fun a row =>
        jsIsObject a = true ∧
        pljs_jsvalue_object_contains_all_column_names a st.tuple_desc = true ∧
        pljs_jsvalue_to_datums cat st.tuple_desc a = .ok row) args rows →
      run_return_next cat st args =
        .ok { st with tuple_store := st.tuple_store ++ rows }) := by
  refine ⟨?_, ?_, ?_, ?_, ?_⟩
  · intro arg
    simp [pljs_return_next]
  · intro arg hobj
    simp [pljs_return_next, hcomp, hobj]
  · intro arg hobj hcols
    simp [pljs_return_next, hcomp, hobj, hcols]
  · intro arg row hobj hcols hrow
    simp [pljs_return_next, hcomp, hobj, hcols, hrow]
  · intro args rows hf
    exact run_return_next_appends cat args rows st hcomp hf

/-- The two-column row descriptor used by the emit-row witness. -/
def demoTd : TupleDesc :=
  { attrs := [{ attname := "a", atttypid := INT4OID, attisdropped := false },
              { attname := "b", atttypid := TEXTOID, attisdropped := false }] }

/-- An empty composite return state over `demoTd`. -/
def demoRetState : pljs_return_state :=
  { tuple_desc := demoTd, is_composite := true, tuple_store := [] }

/-- C3 witness: three fully-populated emit-row calls append exactly three
rows in call order; an object missing column `b` is rejected; a non-object
is rejected; a call without a return state is rejected. -/
theorem return_next_contract_witness :
    run_return_next stdCatalog demoRetState
      [JSVal.object [("a", .int 1), ("b", .str "x")],
       JSVal.object [("a", .int 2), ("b", .str "y")],
       JSVal.object [("a", .int 3), ("b", .str "z")]] =
      .ok { demoRetState with tuple_store :=
        [[some (.int32 1), some (.text "x")],
         [some (.int32 2), some (.text "y")],
         [some (.int32 3), some (.text "z")]] }
  ∧ pljs_return_next stdCatalog (some demoRetState)
      (JSVal.object [("a", .int 1)]) =
      .error "field name / property name mismatch"
  ∧ pljs_return_next stdCatalog (some demoRetState) (JSVal.str "row") =
      .error "argument must be an object"
  ∧ pljs_return_next stdCatalog none (JSVal.object []) =
      .error "return_next called in context that cannot accept a set" := by
  have hc := return_next_contract stdCatalog demoRetState rfl
  refine ⟨?_, ?_, ?_, ?_⟩
  · refine hc.2.2.2.2 _ _ ?_
    refine List.Forall₂.cons ⟨rfl, by decide, ?_⟩
      (List.Forall₂.cons ⟨rfl, by decide, ?_⟩
        (List.Forall₂.cons ⟨rfl, by decide, ?_⟩ List.Forall₂.nil)) <;>
    · simp +decide [pljs_jsvalue_to_datums, encodeRowFields,
        pljs_jsvalue_to_datum, pljs_type_fill, jsGetProp, lookupAssoc,
        jsvalue_scalar_to_datum, jsIsNull, jsIsUndefined, jsIsArray,
        jsIsBigInt, jsToInt32, jsToString, wrapSigned, stdCatalog, stdCategory,
        stdTyplen, stdByval, stdElement, jsIsObject, truncQ, demoTd,
        demoRetState, INT4OID, TEXTOID, JSONOID, JSONBOID, VOIDOID, OIDOID,
        BOOLOID, INT2OID, INT8OID, FLOAT4OID, FLOAT8OID, NUMERICOID,
        VARCHAROID, BPCHAROID, NAMEOID, XMLOID, TYPCATEGORY_ARRAY,
        TYPCATEGORY_NUMERIC, TYPCATEGORY_STRING, TYPCATEGORY_PSEUDOTYPE,
        TYPCATEGORY_COMPOSITE]
  · exact hc.2.2.1 _ rfl (by decide)
  · exact hc.2.1 _ rfl
  · exact hc.1 _

/-- The one-column descriptor and row used by the trigger examples. -/
def trigTd : TupleDesc :=
  { attrs := [{ attname := "a", atttypid := INT4OID, attisdropped := false }] }

/-- A row-level INSERT trigger event on a row with `a = 5`. -/
def trigInsert : TriggerData :=
  { forRow := true, op := .insert,
    trigtuple := [some (.int32 5)], newtuple := [some (.int32 5)] }

/-- C4 counterexample: a row-level trigger function returning script
`null` does NOT leave the triggering row unmodified — `call_trigger`
(pljs.c:981-983) makes the effective row NULL (the operation is skipped),
while the claim expects the original row `(a = 5)` to remain. -/
theorem trigger_null_suppresses_row :
    call_trigger stdCatalog trigTd trigInsert JSVal.null = .ok none ∧
    (Except.ok (ε := String) (some (Datum.record trigTd [some (.int32 5)])) ≠
      .ok none) := by
  constructor
  · rfl
  · simp

/-- C4 (amended): for a row-level trigger, an `undefined` result leaves
the triggering row unmodified; a `null` result makes the effective row
NULL (PostgreSQL then skips the operation); any other result is decoded
as a composite row against the relation's row descriptor and substituted
as the effective row. -/
theorem trigger_result_dispatch (cat : Catalog) (td : TupleDesc)
    (trig : TriggerData) (ret : JSVal) (hrow : trig.forRow = true)
    (hcat : cat.category TRIGGEROID = TYPCATEGORY_PSEUDOTYPE) :
    (ret = .null → call_trigger cat td trig ret = .ok none)
  ∧ (ret = .undefined → trig.op ≠ .truncate →
      call_trigger cat td trig ret = .ok (some (.record td
        (if trig.op = .update then trig.newtuple else trig.trigtuple))))
  ∧ (∀ fields, ret ≠ .null → ret ≠ .undefined →
      encodeRowFields cat ret td.attrs = .ok fields →
      call_trigger cat td trig ret = .ok (some (.record td fields))) := by
  have htype : pljs_type_fill cat TRIGGEROID = .ok
      { typid := TRIGGEROID, length := cat.typlen TRIGGEROID,
        byval := cat.typbyval TRIGGEROID, align := cat.typalign TRIGGEROID,
        category := TYPCATEGORY_PSEUDOTYPE, is_composite := true } := by
    simp [pljs_type_fill, hcat]
    intro hfalse
    exact absurd hfalse (by decide)
  refine ⟨?_, ?_, ?_⟩
  · intro hnull
    subst hnull
    simp [call_trigger, jsIsNull]
  · intro hundef hop
    subst hundef
    rcases trig with ⟨fr, op, tt, nt⟩
    simp at hrow
    subst hrow
    cases op <;>
      simp [call_trigger, jsIsNull, jsIsUndefined] <;> simp at hop
  · intro fields hnull hundef hfields
    have hjn : jsIsNull ret = false := by
      cases ret <;> simp [jsIsNull] at hnull ⊢
    have hju : jsIsUndefined ret = false := by
      cases ret <;> simp [jsIsUndefined] at hundef ⊢
    simp only [call_trigger, hjn, hrow, Bool.not_true, Bool.false_or,
      Bool.or_false, if_false, hju, Bool.not_false, if_true, htype,
      exceptBind_ok]
    simp [pljs_jsvalue_to_record, hjn, hju, hfields]

/-- C4 witness for the amended claim: the three result shapes at the
concrete INSERT event — `undefined` keeps the `(a = 5)` row, `null`
yields a NULL row, and the object `{a: 9}` is decoded and substituted. -/
theorem trigger_result_dispatch_witness :
    call_trigger stdCatalog trigTd trigInsert JSVal.null = .ok none
  ∧ call_trigger stdCatalog trigTd trigInsert JSVal.undefined =
      .ok (some (.record trigTd [some (.int32 5)]))
  ∧ call_trigger stdCatalog trigTd trigInsert
      (JSVal.object [("a", .int 9)]) =
      .ok (some (.record trigTd [some (.int32 9)])) := by
  have h := trigger_result_dispatch stdCatalog trigTd trigInsert
  refine ⟨(h JSVal.null rfl rfl).1 rfl, ?_, ?_⟩
  · have := (h JSVal.undefined rfl rfl).2.1 rfl (by decide)
    simpa [trigInsert] using this
  · refine (h (JSVal.object [("a", .int 9)]) rfl rfl).2.2
      [some (.int32 9)] (by simp) (by simp) ?_
    simp +decide [encodeRowFields, pljs_jsvalue_to_datum, pljs_type_fill,
      jsGetProp, lookupAssoc, jsvalue_scalar_to_datum, jsIsNull,
      jsIsUndefined, jsIsArray, jsIsBigInt, jsToInt32, wrapSigned,
      stdCatalog, stdCategory, stdTyplen, stdByval, stdElement, jsIsObject,
      truncQ, trigTd, INT4OID, JSONOID, JSONBOID, VOIDOID, OIDOID, BOOLOID,
      INT2OID, INT8OID, FLOAT4OID, FLOAT8OID, NUMERICOID, TEXTOID,
      VARCHAROID, BPCHAROID, NAMEOID, XMLOID, TYPCATEGORY_ARRAY,
      TYPCATEGORY_NUMERIC, TYPCATEGORY_PSEUDOTYPE, TYPCATEGORY_COMPOSITE]

/-- The script shapes the `bytea` branch accepts (types.c:1004-1093):
1-, 2- and 4-byte typed numeric views, generic `ArrayBuffer`s, and plain
strings. -/
def byteaAccepted : JSVal → Bool
  | .typed .u8 _ => true
  | .typed .i8 _ => true
  | .typed .u16 _ => true
  | .typed .i16 _ => true
  | .typed .u32 _ => true
  | .typed .i32 _ => true
  | .buffer _ => true
  | .str _ => true
  | _ => false

/-- Mapping over the index range of a typed view is mapping over its
elements. -/
theorem range_map_typedElem {α : Type} (g : JSVal → α) (xs : List Int) :
    (List.range xs.length).map (fun i => g (typedElem xs i)) =
      xs.map (fun v => g (.int v)) := by
  induction xs with
  | nil => simp
  | cons x rest ih =>
    rw [List.length_cons, List.range_succ_eq_map, List.map_cons, List.map_map]
    rw [show ((fun i => g (typedElem (x :: rest) i)) ∘ Nat.succ) =
        (fun i => g (typedElem rest i)) from rfl]
    rw [ih]
    rfl

/-- The in-bounds indices of the 4-byte copy loop are exactly the view's
index range. -/
theorem u32CopyIndices_filter (n : Nat) :
    (u32CopyIndices n).filter (fun i => decide (i < n)) = List.range n := by
  unfold u32CopyIndices
  rw [show 4 * n = n + 3 * n by ring, List.range_add, List.filter_append]
  have h1 : (List.range n).filter (fun i => decide (i < n)) = List.range n := by
    apply List.filter_eq_self.mpr
    intro a ha
    simp [List.mem_range.mp ha]
  have h2 : ((List.range (3 * n)).map (fun i => n + i)).filter
      (fun i => decide (i < n)) = [] := by
    apply List.filter_eq_nil_iff.mpr
    intro a ha
    simp only [List.mem_map, List.mem_range] at ha
    obtain ⟨i, hi, rfl⟩ := ha
    simp
  rw [h1, h2, List.append_nil]

/-- C6 counterexample: a script value of an unaccepted shape (here a
boolean) encoded at the binary-blob type yields SQL NULL — an `ok`
result, not a raised error as the claim states. -/
theorem bytea_unaccepted_shape_yields_null :
    pljs_jsvalue_to_datum stdCatalog BYTEAOID (JSVal.bool true) = .ok none := by
  simp +decide [pljs_jsvalue_to_datum, pljs_type_fill, jsvalue_scalar_to_datum,
    jsvalue_to_bytea, jsIsNull, jsIsUndefined, jsIsArray, jsIsBigInt,
    stdCatalog, stdCategory, stdTyplen, stdByval, stdElement, BYTEAOID,
    JSONOID, JSONBOID, VOIDOID, OIDOID, BOOLOID, INT2OID, INT4OID, INT8OID,
    FLOAT4OID, FLOAT8OID, NUMERICOID, TEXTOID, VARCHAROID, BPCHAROID,
    NAMEOID, XMLOID, DATEOID, TIMESTAMPOID, TIMESTAMPTZOID,
    TYPCATEGORY_ARRAY, TYPCATEGORY_USER, TYPCATEGORY_PSEUDOTYPE,
    TYPCATEGORY_COMPOSITE]

/-- C6 (amended): the `bytea` encoder copies exactly the four accepted
script shapes byte-for-byte into the length-prefixed buffer — 1-byte
typed views element-wise, 2- and 4-byte typed views as little-endian element
bytes, generic byte buffers and strings verbatim — while a script array
is intercepted earlier by the generic array path, and every other shape
(clamped views, shared buffers, numbers, dates, objects, …) yields SQL
NULL without raising an error. -/
theorem bytea_encode_shapes (cat : Catalog) (val : JSVal)
    (hA : cat.category BYTEAOID ≠ TYPCATEGORY_ARRAY)
    (hC : cat.category BYTEAOID ≠ TYPCATEGORY_COMPOSITE)
    (hP : cat.category BYTEAOID ≠ TYPCATEGORY_PSEUDOTYPE) :
    (∀ xs : List Int, (∀ x ∈ xs, 0 ≤ x ∧ x < 2 ^ 8) →
      pljs_jsvalue_to_datum cat BYTEAOID (.typed .u8 xs) =
        .ok (some (.bytea (xs.map Int.toNat))))
  ∧ (∀ xs : List Int, (∀ x ∈ xs, 0 ≤ x ∧ x < 2 ^ 16) →
      pljs_jsvalue_to_datum cat BYTEAOID (.typed .u16 xs) =
        .ok (some (.bytea (xs.map (fun v => bytesLE 2 v.toNat)).flatten)))
  ∧ (∀ xs : List Int, (∀ x ∈ xs, 0 ≤ x ∧ x < 2 ^ 32) →
      pljs_jsvalue_to_datum cat BYTEAOID (.typed .u32 xs) =
        .ok (some (.bytea (xs.map (fun v => bytesLE 4 v.toNat)).flatten)))
  ∧ (∀ bs, pljs_jsvalue_to_datum cat BYTEAOID (.buffer bs) =
      .ok (some (.bytea bs)))
  ∧ (∀ s, pljs_jsvalue_to_datum cat BYTEAOID (.str s) =
      .ok (some (.bytea (bytesOfString s))))
  ∧ (jsIsNull val = false → jsIsUndefined val = false →
      jsIsArray val = false → byteaAccepted val = false →
      pljs_jsvalue_to_datum cat BYTEAOID val = .ok none) := by
  have hfill : pljs_type_fill cat BYTEAOID = .ok
      { typid := BYTEAOID, length := cat.typlen BYTEAOID,
        byval := cat.typbyval BYTEAOID, align := cat.typalign BYTEAOID,
        category := cat.category BYTEAOID, is_composite := false } := by
    simp [pljs_type_fill, hA, hP, decide_eq_false hC]
  have hcatA : (cat.category BYTEAOID == TYPCATEGORY_ARRAY) = false := by
    simp [hA]
  have hstep : ∀ w : JSVal, jsIsNull w = false → jsIsUndefined w = false →
      jsIsArray w = false →
      pljs_jsvalue_to_datum cat BYTEAOID w = jsvalue_to_bytea w := by
    intro w h1 h2 h3
    rw [pljs_jsvalue_to_datum, hfill, exceptBind_ok]
    simp only [h1, h2, h3, hcatA, Bool.and_false, Bool.false_and,
      Bool.and_true, Bool.not_false, Bool.or_self, Bool.false_or,
      Bool.or_false, Bool.false_eq_true, if_false]
    norm_num [jsvalue_scalar_to_datum, BYTEAOID, VOIDOID, OIDOID, BOOLOID,
      INT2OID, INT4OID, INT8OID, FLOAT4OID, FLOAT8OID, NUMERICOID, TEXTOID,
      VARCHAROID, BPCHAROID, NAMEOID, XMLOID, JSONOID, JSONBOID]
  refine ⟨?_, ?_, ?_, ?_, ?_, ?_⟩
  · intro xs hxs
    rw [hstep (.typed .u8 xs) rfl rfl rfl]
    have hmap : (List.range xs.length).map
        (fun i => wrapUnsigned 8 (jsToInt32 (typedElem xs i))) =
        xs.map Int.toNat := by
      rw [range_map_typedElem (fun w => wrapUnsigned 8 (jsToInt32 w)) xs]
      apply List.map_congr_left
      intro x hx
      obtain ⟨hx0, hx1⟩ := hxs x hx
      show wrapUnsigned 8 (wrapSigned 32 x) = x.toNat
      unfold wrapUnsigned wrapSigned
      omega
    simp [jsvalue_to_bytea, pljs_js_array_length, hmap]
  · intro xs hxs
    rw [hstep (.typed .u16 xs) rfl rfl rfl]
    have hmap : (List.range xs.length).map
        (fun i => wrapUnsigned 16 (jsToInt32 (typedElem xs i))) =
        xs.map Int.toNat := by
      rw [range_map_typedElem (fun w => wrapUnsigned 16 (jsToInt32 w)) xs]
      apply List.map_congr_left
      intro x hx
      obtain ⟨hx0, hx1⟩ := hxs x hx
      show wrapUnsigned 16 (wrapSigned 32 x) = x.toNat
      unfold wrapUnsigned wrapSigned
      omega
    simp [jsvalue_to_bytea, pljs_js_array_length, hmap, List.map_map,
      Function.comp]
    rfl
  · intro xs hxs
    rw [hstep (.typed .u32 xs) rfl rfl rfl]
    have hmap : ((u32CopyIndices xs.length).filter
          (fun i => decide (i < xs.length))).map
        (fun i => wrapUnsigned 32 (jsToInt32 (typedElem xs i))) =
        xs.map Int.toNat := by
      rw [u32CopyIndices_filter]
      rw [range_map_typedElem (fun w => wrapUnsigned 32 (jsToInt32 w)) xs]
      apply List.map_congr_left
      intro x hx
      obtain ⟨hx0, hx1⟩ := hxs x hx
      show wrapUnsigned 32 (wrapSigned 32 x) = x.toNat
      unfold wrapUnsigned wrapSigned
      omega
    simp [jsvalue_to_bytea, pljs_js_array_length, hmap, List.map_map,
      Function.comp]
    rfl
  · intro bs
    rw [hstep (.buffer bs) rfl rfl rfl]
    simp [jsvalue_to_bytea]
  · intro s
    rw [hstep (.str s) rfl rfl rfl]
    simp [jsvalue_to_bytea]
  · intro h1 h2 h3 hacc
    rw [hstep val h1 h2 h3]
    cases val
    case typed k xs =>
      cases k <;> simp_all [byteaAccepted, jsvalue_to_bytea]
    all_goals simp_all [byteaAccepted, jsvalue_to_bytea, jsIsNull,
      jsIsUndefined, jsIsArray]

/-- C6 witness for the amended claim: the accepted shapes copied
byte-for-byte at concrete inputs, and a rejected shape (a `Date`)
yielding SQL NULL. -/
theorem bytea_encode_shapes_witness :
    pljs_jsvalue_to_datum stdCatalog BYTEAOID (.typed .u8 [1, 2]) =
      .ok (some (.bytea [1, 2]))
  ∧ pljs_jsvalue_to_datum stdCatalog BYTEAOID (.typed .u16 [258]) =
      .ok (some (.bytea [2, 1]))
  ∧ pljs_jsvalue_to_datum stdCatalog BYTEAOID (.typed .u32 [1]) =
      .ok (some (.bytea [1, 0, 0, 0]))
  ∧ pljs_jsvalue_to_datum stdCatalog BYTEAOID (.buffer [7]) =
      .ok (some (.bytea [7]))
  ∧ pljs_jsvalue_to_datum stdCatalog BYTEAOID (.str "ab") =
      .ok (some (.bytea [97, 98]))
  ∧ pljs_jsvalue_to_datum stdCatalog BYTEAOID (.date 0) = .ok none := by
  have h := bytea_encode_shapes stdCatalog (.date 0)
    (by decide) (by decide) (by decide)
  refine ⟨?_, ?_, ?_, h.2.2.2.1 [7], ?_, h.2.2.2.2.2 rfl rfl rfl rfl⟩
  · rw [h.1 [1, 2] (by decide)]
    rfl
  · rw [h.2.1 [258] (by decide)]
    rfl
  · rw [h.2.2.1 [1] (by decide)]
    rfl
  · rw [h.2.2.2.2.1 "ab"]
    rfl

/-- Setting a fresh property name appends it. -/
theorem jsSetProp_append_fresh (props : List (String × JSVal)) (n : String)
    (v : JSVal) (h : n ∉ props.map Prod.fst) :
    jsSetProp props n v = props ++ [(n, v)] := by
  induction props with
  | nil => rfl
  | cons p rest ih =>
    obtain ⟨m, w⟩ := p
    simp only [List.map_cons, List.mem_cons] at h
    push_neg at h
    rw [jsSetProp, if_neg (fun he => h.1 he.symm), ih h.2]
    rfl

/-- Folding property sets over pairwise-fresh names appends them all. -/
theorem foldl_setProp_append :
    ∀ (props acc : List (String × JSVal)),
    (∀ p ∈ props, p.1 ∉ acc.map Prod.fst) → (props.map Prod.fst).Nodup →
    props.foldl (fun a p => jsSetProp a p.1 p.2) acc = acc ++ props := by
  intro props
  induction props with
  | nil => simp
  | cons p rest ih =>
    intro acc hfresh hnodup
    simp only [List.foldl_cons]
    rw [jsSetProp_append_fresh acc p.1 p.2 (hfresh p (List.mem_cons_self p rest))]
    rw [ih (acc ++ [p]) ?_ ?_]
    · simp
    · intro q hq
      rw [List.map_append, List.mem_append]
      push_neg
      refine ⟨hfresh q (List.mem_cons_of_mem p hq), ?_⟩
      simp only [List.map_cons, List.map_nil, List.mem_singleton]
      intro he
      rw [List.map_cons, List.nodup_cons] at hnodup
      exact hnodup.1 (he ▸ List.mem_map_of_mem Prod.fst hq)
    · rw [List.map_cons, List.nodup_cons] at hnodup
      exact hnodup.2

/-- Building an object from pairwise-fresh properties keeps them as
given. -/
theorem buildObject_eq_self (props : List (String × JSVal))
    (h : (props.map Prod.fst).Nodup) : buildObject props = props := by
  unfold buildObject
  rw [foldl_setProp_append props [] (by simp) h]
  rfl

/-- Characterization of the shared row-decoding loop of
`pljs_datum_to_object` / `pljs_tuple_to_jsvalue`: when every non-dropped,
non-null field converts, the loop succeeds and produces, in order, exactly
one name/value pair per non-dropped attribute — the attribute's name, with
null fields as script `null` and the rest as their converted values. -/
theorem decodeRowProps_spec (cat : Catalog) :
    ∀ (attrs : List Attr) (row : List (Option Datum)),
    row.length = attrs.length →
    (∀ p ∈ attrs.zip row, p.1.attisdropped = false → ∀ d, p.2 = some d →
      ∃ v, pljs_datum_to_jsvalue cat d p.1.atttypid false = .ok v) →
    ∃ props, decodeRowProps cat attrs row = .ok props ∧
      props.map Prod.fst = ((attrs.zip row).filter
        (fun p => !p.1.attisdropped)).map (fun p => p.1.attname) ∧
      List.Forall₂ (fun (p : Attr × Option Datum) (q : String × JSVal) =>
        q.1 = p.1.attname ∧
        (p.2 = none → q.2 = JSVal.null) ∧
        (∀ d, p.2 = some d →
          pljs_datum_to_jsvalue cat d p.1.atttypid false = .ok q.2))
        ((attrs.zip row).filter (fun p => !p.1.attisdropped)) props := by
  intro attrs
  induction attrs with
  | nil =>
    intro row hlen hdec
    refine ⟨[], ?_, by simp, by simp⟩
    simp [decodeRowProps]
  | cons a as ih =>
    intro row hlen hdec
    cases row with
    | nil => simp at hlen
    | cons f fs =>
      simp only [List.length_cons, Nat.succ.injEq] at hlen
      have hdec' : ∀ p ∈ as.zip fs, p.1.attisdropped = false →
          ∀ d, p.2 = some d →
          ∃ v, pljs_datum_to_jsvalue cat d p.1.atttypid false = .ok v := by
        intro p hp
        exact hdec p (by simp [List.zip_cons_cons, hp])
      obtain ⟨props, hrec, hnames, hfa⟩ := ih fs hlen hdec'
      by_cases hdrop : a.attisdropped
      · refine ⟨props, ?_, ?_, ?_⟩
        · rw [decodeRowProps.eq_def]
          simp only [if_pos hdrop]
          exact hrec
        · simp [List.zip_cons_cons, hdrop, hnames]
        · simpa [List.zip_cons_cons, hdrop] using hfa
      · cases f with
        | none =>
          refine ⟨(a.attname, JSVal.null) :: props, ?_, ?_, ?_⟩
          · rw [decodeRowProps.eq_def]
            simp only [if_neg hdrop]
            rw [hrec]
            rfl
          · simp [List.zip_cons_cons, hdrop, hnames]
          · rw [List.zip_cons_cons]
            rw [show (((a, (none : Option Datum)) :: as.zip fs).filter
                (fun p => !p.1.attisdropped)) =
                (a, (none : Option Datum)) ::
                  ((as.zip fs).filter (fun p => !p.1.attisdropped)) from by
              simp [hdrop]]
            exact List.Forall₂.cons ⟨rfl, fun _ => rfl, by simp⟩ hfa
        | some d =>
          obtain ⟨v, hv⟩ := hdec (a, some d) (by simp [List.zip_cons_cons])
            (by simpa using hdrop) d rfl
          refine ⟨(a.attname, v) :: props, ?_, ?_, ?_⟩
          · rw [decodeRowProps.eq_def]
            simp only [if_neg hdrop]
            rw [hv, exceptBind_ok, hrec]
            rfl
          · simp [List.zip_cons_cons, hdrop, hnames]
          · rw [List.zip_cons_cons]
            rw [show (((a, some d) :: as.zip fs).filter
                (fun p => !p.1.attisdropped)) =
                (a, some d) ::
                  ((as.zip fs).filter (fun p => !p.1.attisdropped)) from by
              simp [hdrop]]
            refine List.Forall₂.cons ⟨rfl, by simp, ?_⟩ hfa
            intro d' hd'
            cases hd'
            exact hv

/-- The number of non-dropped attribute/field pairs. -/
theorem zip_filter_dropped_length :
    ∀ (attrs : List Attr) (row : List (Option Datum)),
    row.length = attrs.length →
    ((attrs.zip row).filter (fun p => !p.1.attisdropped)).length =
      attrs.length - (attrs.filter (fun a => a.attisdropped)).length := by
  intro attrs
  induction attrs with
  | nil => simp
  | cons a as ih =>
    intro row hlen
    cases row with
    | nil => simp at hlen
    | cons f fs =>
      simp only [List.length_cons, Nat.succ.injEq] at hlen
      have hle : (as.filter (fun a => a.attisdropped)).length ≤ as.length :=
        List.length_filter_le _ as
      by_cases hdrop : a.attisdropped <;>
        simp [List.zip_cons_cons, hdrop, ih fs hlen] <;> omega

/-- C7: converting a row to a script object (both `pljs_tuple_to_jsvalue`
and the composite decoder `pljs_datum_to_object`) produces exactly one
property per non-dropped attribute, named after the attribute, with null
attributes as script `null`; dropped attributes contribute no property at
all, so the object has exactly `natts − droppedCount` properties. -/
theorem tuple_to_jsvalue_props (cat : Catalog) (td : TupleDesc)
    (row : List (Option Datum))
    (hnodup : ((((td.attrs.zip row).filter (fun p => !p.1.attisdropped)).map
      (fun p => p.1.attname))).Nodup)
    (hlen : row.length = td.attrs.length)
    (hdec : ∀ p ∈ td.attrs.zip row, p.1.attisdropped = false →
      ∀ d, p.2 = some d →
      ∃ v, pljs_datum_to_jsvalue cat d p.1.atttypid false = .ok v) :
    ∃ props,
      pljs_tuple_to_jsvalue cat td row = .ok (.object props) ∧
      pljs_datum_to_object cat (.record td row) = .ok (.object props) ∧
      props.map Prod.fst = ((td.attrs.zip row).filter
        (fun p => !p.1.attisdropped)).map (fun p => p.1.attname) ∧
      props.length =
        td.attrs.length - (td.attrs.filter (fun a => a.attisdropped)).length ∧
      List.Forall₂ (fun (p : Attr × Option Datum) (q : String × JSVal) =>
        q.1 = p.1.attname ∧
        (p.2 = none → q.2 = JSVal.null) ∧
        (∀ d, p.2 = some d →
          pljs_datum_to_jsvalue cat d p.1.atttypid false = .ok q.2))
        ((td.attrs.zip row).filter (fun p => !p.1.attisdropped)) props := by
  obtain ⟨props, hrec, hnames, hfa⟩ := decodeRowProps_spec cat td.attrs row hlen hdec
  have hbuild : buildObject props = props :=
    buildObject_eq_self props (hnames ▸ hnodup)
  refine ⟨props, ?_, ?_, hnames, ?_, hfa⟩
  · rw [pljs_tuple_to_jsvalue, hrec, exceptBind_ok, hbuild]
    rfl
  · rw [pljs_datum_to_object, hrec, exceptBind_ok, hbuild]
    rfl
  · rw [← List.Forall₂.length_eq hfa]
    exact zip_filter_dropped_length td.attrs row hlen

/-- The three-column descriptor with a dropped middle column used by the
dropped-column witness. -/
def droppedTd : TupleDesc :=
  { attrs := [{ attname := "a", atttypid := INT4OID, attisdropped := false },
              { attname := "b", atttypid := TEXTOID, attisdropped := true },
              { attname := "c", atttypid := BOOLOID, attisdropped := false }] }

/-- A row over `droppedTd`. -/
def droppedRow : List (Option Datum) :=
  [some (.int32 1), none, some (.bool true)]

/-- C7 witness: the dropped middle column contributes no property — the
object has exactly `natts − droppedCount = 3 − 1 = 2` properties, and no
null placeholder appears for column `b`. -/
theorem tuple_to_jsvalue_props_witness :
    pljs_tuple_to_jsvalue stdCatalog droppedTd droppedRow =
      .ok (.object [("a", .int 1), ("c", .bool true)])
  ∧ pljs_datum_to_object stdCatalog (.record droppedTd droppedRow) =
      .ok (.object [("a", .int 1), ("c", .bool true)])
  ∧ ([("a", JSVal.int 1), ("c", JSVal.bool true)] :
      List (String × JSVal)).length =
      droppedTd.attrs.length -
        (droppedTd.attrs.filter (fun a => a.attisdropped)).length := by
  have hdec : ∀ p ∈ droppedTd.attrs.zip droppedRow,
      p.1.attisdropped = false → ∀ d, p.2 = some d →
      ∃ v, pljs_datum_to_jsvalue stdCatalog d p.1.atttypid false =
        .ok v := by
    intro p hp hdrop d hd
    fin_cases hp <;> simp_all
    · exact ⟨.int 1, by
        cases hd
        simp +decide [pljs_datum_to_jsvalue, pljs_type_fill,
          datum_scalar_to_jsvalue, datumRawInt, stdCatalog, stdCategory,
          stdTyplen, stdByval, stdElement, INT4OID, OIDOID, BOOLOID,
          TYPCATEGORY_ARRAY, TYPCATEGORY_NUMERIC, TYPCATEGORY_PSEUDOTYPE,
          TYPCATEGORY_COMPOSITE]⟩
    · exact ⟨.bool true, by
        cases hd
        simp +decide [pljs_datum_to_jsvalue, pljs_type_fill,
          datum_scalar_to_jsvalue, datumGetBool, stdCatalog, stdCategory,
          stdTyplen, stdByval, stdElement, INT4OID, OIDOID, BOOLOID,
          TYPCATEGORY_ARRAY, TYPCATEGORY_BOOLEAN, TYPCATEGORY_PSEUDOTYPE,
          TYPCATEGORY_COMPOSITE]⟩
  obtain ⟨props, h1, h2, h3, h4, h5⟩ :=
    tuple_to_jsvalue_props stdCatalog droppedTd droppedRow
      (by decide) (by decide) hdec
  have heval : pljs_tuple_to_jsvalue stdCatalog droppedTd droppedRow =
      .ok (.object [("a", .int 1), ("c", .bool true)]) := by
    simp +decide [pljs_tuple_to_jsvalue, decodeRowProps,
      pljs_datum_to_jsvalue, pljs_type_fill, datum_scalar_to_jsvalue,
      datumRawInt, datumGetBool, buildObject, jsSetProp, droppedTd,
      droppedRow, stdCatalog, stdCategory, stdTyplen, stdByval, stdElement,
      INT4OID, OIDOID, BOOLOID, TEXTOID, TYPCATEGORY_ARRAY,
      TYPCATEGORY_NUMERIC, TYPCATEGORY_BOOLEAN, TYPCATEGORY_PSEUDOTYPE,
      TYPCATEGORY_COMPOSITE]
  have hprops : props = [("a", JSVal.int 1), ("c", JSVal.bool true)] := by
    rw [heval] at h1
    injection h1 with h1'
    cases h1'
    rfl
  subst hprops
  exact ⟨h1, h2, h4⟩

/-- `wrapSigned 16` fixes int16-range values. -/
theorem wrapSigned16_small {n : Int} (h1 : -32768 ≤ n) (h2 : n < 32768) :
    wrapSigned 16 n = n := by
  unfold wrapSigned
  norm_num
  omega

/-- `wrapSigned 32` fixes int32-range values. -/
theorem wrapSigned32_small {n : Int} (h1 : -2147483648 ≤ n)
    (h2 : n < 2147483648) : wrapSigned 32 n = n := by
  unfold wrapSigned
  norm_num
  omega

/-- `wrapSigned 64` fixes int64-range values. -/
theorem wrapSigned64_small {n : Int} (h1 : -9223372036854775808 ≤ n)
    (h2 : n < 9223372036854775808) : wrapSigned 64 n = n := by
  unfold wrapSigned
  norm_num
  omega

/-- `wrapUnsigned 32` fixes uint32-range values. -/
theorem wrapUnsigned32_small {n : Int} (h0 : 0 ≤ n) (h : n < 4294967296) :
    wrapUnsigned 32 n = n.toNat := by
  unfold wrapUnsigned
  norm_num
  omega

/-- `pljs_type_fill` at a type that is neither array-, composite- nor
pseudo-category keeps the type id and marks it non-composite. -/
theorem type_fill_scalar (cat : Catalog) (t : Oid)
    (hA : cat.category t ≠ TYPCATEGORY_ARRAY)
    (hC : cat.category t ≠ TYPCATEGORY_COMPOSITE)
    (hP : cat.category t ≠ TYPCATEGORY_PSEUDOTYPE) :
    pljs_type_fill cat t = .ok
      { typid := t, length := cat.typlen t, byval := cat.typbyval t,
        align := cat.typalign t, category := cat.category t,
        is_composite := false } := by
  simp [pljs_type_fill, hA, hP, decide_eq_false hC]

/-- At a scalar-category type, decoding goes through the scalar dispatch
switch. -/
theorem datum_to_jsvalue_scalar_path (cat : Catalog) (t : Oid) (d : Datum)
    (hA : cat.category t ≠ TYPCATEGORY_ARRAY)
    (hC : cat.category t ≠ TYPCATEGORY_COMPOSITE)
    (hP : cat.category t ≠ TYPCATEGORY_PSEUDOTYPE) :
    pljs_datum_to_jsvalue cat d t false = .ok (datum_scalar_to_jsvalue cat
      { typid := t, length := cat.typlen t, byval := cat.typbyval t,
        align := cat.typalign t, category := cat.category t,
        is_composite := false } d) := by
  rw [pljs_datum_to_jsvalue, type_fill_scalar cat t hA hC hP, exceptBind_ok]
  simp [hA]

/-- At a scalar-category type, encoding a non-array, non-null value goes
through the scalar dispatch switch. -/
theorem jsvalue_to_datum_scalar_path (cat : Catalog) (t : Oid) (v : JSVal)
    (hA : cat.category t ≠ TYPCATEGORY_ARRAY)
    (hC : cat.category t ≠ TYPCATEGORY_COMPOSITE)
    (hP : cat.category t ≠ TYPCATEGORY_PSEUDOTYPE)
    (hna : jsIsArray v = false) (hnn : jsIsNull v = false)
    (hnu : jsIsUndefined v = false) :
    pljs_jsvalue_to_datum cat t v = jsvalue_scalar_to_datum cat t
      { typid := t, length := cat.typlen t, byval := cat.typbyval t,
        align := cat.typalign t, category := cat.category t,
        is_composite := false } v := by
  rw [pljs_jsvalue_to_datum, type_fill_scalar cat t hA hC hP, exceptBind_ok]
  have hcatA : (cat.category t == TYPCATEGORY_ARRAY) = false := by
    simp [hA]
  simp only [hna, hnn, hnu, hcatA, Bool.and_false, Bool.false_and,
    Bool.and_true, Bool.not_false, Bool.or_self, Bool.false_eq_true,
    if_false]

/-- The scalar values the decode/encode pair restores exactly: booleans,
16/32/64-bit integers within their ranges, oids, the text-like strings
(text, varchar, bpchar, xml, name), byte blobs whose bytes survive the
engine's UTF-8 string conversion (in particular any well-formed UTF-8
blob), dates whose epoch stays within the ECMAScript `Date` range
(`|d + 10957| ≤ 10^8` days — every double operation is then also exact),
and whole-millisecond timestamps of at most `72057594037927` ms magnitude
(beyond which the `int64`-to-`double` conversion of the microsecond count
rounds).  Decimals, floats, sub-millisecond timestamps and JSON are
outside (lossy or re-serialized). -/
inductive ExactScalar : Oid → Datum → Prop where
  | bool (b : Bool) : ExactScalar BOOLOID (.bool b)
  | int2 (n : Int) (h1 : -32768 ≤ n) (h2 : n < 32768) :
      ExactScalar INT2OID (.int16 n)
  | int4 (n : Int) (h1 : -2147483648 ≤ n) (h2 : n < 2147483648) :
      ExactScalar INT4OID (.int32 n)
  | int8 (n : Int) (h1 : -9223372036854775808 ≤ n)
      (h2 : n < 9223372036854775808) : ExactScalar INT8OID (.int64 n)
  | oid (n : Nat) (h : n < 4294967296) : ExactScalar OIDOID (.oid n)
  | text (s : String) : ExactScalar TEXTOID (.text s)
  | varchar (s : String) : ExactScalar VARCHAROID (.text s)
  | bpchar (s : String) : ExactScalar BPCHAROID (.text s)
  | xml (s : String) : ExactScalar XMLOID (.text s)
  | name (s : String) : ExactScalar NAMEOID (.text s)
  | bytea (bs : List Nat) (h : bytesOfString (stringOfBytes bs) = bs) :
      ExactScalar BYTEAOID (.bytea bs)
  | date (dd : Int) (h1 : -100010957 ≤ dd) (h2 : dd ≤ 99989043) :
      ExactScalar DATEOID (.date dd)
  | timestamp (k : Int) (h1 : -72057594037927 ≤ k)
      (h2 : k ≤ 72057594037927) : ExactScalar TIMESTAMPOID (.timestamp (1000 * k))
  | timestamptz (k : Int) (h1 : -72057594037927 ≤ k)
      (h2 : k ≤ 72057594037927) :
      ExactScalar TIMESTAMPTZOID (.timestamp (1000 * k))

/-- The values the decode/encode pair restores exactly: exact scalars at
scalar-category type ids, arrays of such values (with nulls) at
array-category type ids whose element resolves to a non-JSON type, and
records at composite-category type ids whose registered descriptor matches
the tuple's, has pairwise-distinct non-dropped column names, and whose
dropped fields are null. -/
inductive RoundTrippable (cat : Catalog) : Oid → Datum → Prop where
  | scalar (t : Oid) (d : Datum) :
      ExactScalar t d →
      cat.category t ≠ TYPCATEGORY_ARRAY →
      cat.category t ≠ TYPCATEGORY_COMPOSITE →
      cat.category t ≠ TYPCATEGORY_PSEUDOTYPE →
      RoundTrippable cat t d
  | array (A : Oid) (elems : List (Option Datum)) :
      cat.category A = TYPCATEGORY_ARRAY →
      cat.element A ≠ InvalidOid →
      cat.element A ≠ JSONOID →
      cat.element A ≠ JSONBOID →
      (∀ e ∈ elems, ∀ d, e = some d → RoundTrippable cat (cat.element A) d) →
      RoundTrippable cat A (.array elems)
  | record (R : Oid) (td : TupleDesc) (fields : List (Option Datum)) :
      cat.category R = TYPCATEGORY_COMPOSITE →
      cat.rowtype R = some td →
      ((((td.attrs.zip fields).filter (fun p => !p.1.attisdropped)).map
        (fun p => p.1.attname))).Nodup →
      fields.length = td.attrs.length →
      (∀ p ∈ td.attrs.zip fields, p.1.attisdropped = true → p.2 = none) →
      (∀ p ∈ td.attrs.zip fields, p.1.attisdropped = false →
        ∀ d, p.2 = some d → RoundTrippable cat p.1.atttypid d) →
      RoundTrippable cat R (.record td fields)

/-- Exact scalars survive the decode/encode round trip, and their decoded
values are never script `null`/`undefined`/arrays. -/
theorem exactScalar_round_trip (cat : Catalog) {t : Oid} {d : Datum}
    (hex : ExactScalar t d)
    (hA : cat.category t ≠ TYPCATEGORY_ARRAY)
    (hC : cat.category t ≠ TYPCATEGORY_COMPOSITE)
    (hP : cat.category t ≠ TYPCATEGORY_PSEUDOTYPE) :
    ∃ v, pljs_datum_to_jsvalue cat d t false = .ok v ∧
      jsIsNull v = false ∧ jsIsUndefined v = false ∧ jsIsArray v = false ∧
      pljs_jsvalue_to_datum cat t v = .ok (some d) := by
  cases hex with
  | bool b =>
    refine ⟨.bool b, ?_, rfl, rfl, rfl, ?_⟩
    · rw [datum_to_jsvalue_scalar_path cat _ _ hA hC hP]
      norm_num [datum_scalar_to_jsvalue, datumGetBool, BOOLOID, OIDOID]
    · rw [jsvalue_to_datum_scalar_path cat _ (JSVal.bool b) hA hC hP rfl rfl rfl]
      norm_num [jsvalue_scalar_to_datum, jsToBool, BOOLOID, OIDOID, VOIDOID]
  | int2 n h1 h2 =>
    refine ⟨.int n, ?_, rfl, rfl, rfl, ?_⟩
    · rw [datum_to_jsvalue_scalar_path cat _ _ hA hC hP]
      norm_num [datum_scalar_to_jsvalue, datumRawInt, INT2OID, OIDOID,
        BOOLOID]
    · rw [jsvalue_to_datum_scalar_path cat _ (JSVal.int n) hA hC hP rfl rfl rfl]
      norm_num [jsvalue_scalar_to_datum, jsIsBigInt, jsToInt32, INT2OID,
        OIDOID, BOOLOID, VOIDOID]
      rw [wrapSigned32_small (by omega) (by omega)]
      rw [wrapSigned16_small h1 h2]
  | int4 n h1 h2 =>
    refine ⟨.int n, ?_, rfl, rfl, rfl, ?_⟩
    · rw [datum_to_jsvalue_scalar_path cat _ _ hA hC hP]
      norm_num [datum_scalar_to_jsvalue, datumRawInt, INT4OID, OIDOID,
        BOOLOID, INT2OID]
    · rw [jsvalue_to_datum_scalar_path cat _ (JSVal.int n) hA hC hP rfl rfl rfl]
      norm_num [jsvalue_scalar_to_datum, jsIsBigInt, jsToInt32, INT4OID,
        OIDOID, BOOLOID, INT2OID, VOIDOID]
      rw [wrapSigned32_small h1 h2]
  | int8 n h1 h2 =>
    refine ⟨.bigint n, ?_, rfl, rfl, rfl, ?_⟩
    · rw [datum_to_jsvalue_scalar_path cat _ _ hA hC hP]
      norm_num [datum_scalar_to_jsvalue, datumRawInt, INT8OID, OIDOID,
        BOOLOID, INT2OID, INT4OID]
    · rw [jsvalue_to_datum_scalar_path cat _ (JSVal.bigint n) hA hC hP rfl rfl rfl]
      norm_num [jsvalue_scalar_to_datum, jsIsBigInt, jsToBigInt64, INT8OID,
        OIDOID, BOOLOID, INT2OID, INT4OID, VOIDOID]
      rw [wrapSigned64_small h1 h2]
  | oid n h =>
    refine ⟨.int n, ?_, rfl, rfl, rfl, ?_⟩
    · rw [datum_to_jsvalue_scalar_path cat _ _ hA hC hP]
      norm_num [datum_scalar_to_jsvalue, datumRawInt, OIDOID]
    · rw [jsvalue_to_datum_scalar_path cat _ (JSVal.int (n : Int)) hA hC hP rfl rfl rfl]
      norm_num [jsvalue_scalar_to_datum, jsToInt64, OIDOID, VOIDOID]
      rw [wrapSigned64_small (by omega) (by omega)]
      rw [wrapUnsigned32_small (by omega) (by omega)]
      simp
  | text s =>
    refine ⟨.str s, ?_, rfl, rfl, rfl, ?_⟩
    · rw [datum_to_jsvalue_scalar_path cat _ _ hA hC hP]
      norm_num [datum_scalar_to_jsvalue, datumGetString, TEXTOID, OIDOID,
        BOOLOID, INT2OID, INT4OID, INT8OID, FLOAT4OID, FLOAT8OID, NUMERICOID]
    · rw [jsvalue_to_datum_scalar_path cat _ (JSVal.str s) hA hC hP rfl rfl rfl]
      norm_num [jsvalue_scalar_to_datum, jsToString, TEXTOID, OIDOID,
        BOOLOID, INT2OID, INT4OID, INT8OID, FLOAT4OID, FLOAT8OID, NUMERICOID,
        VOIDOID]
  | varchar s =>
    refine ⟨.str s, ?_, rfl, rfl, rfl, ?_⟩
    · rw [datum_to_jsvalue_scalar_path cat _ _ hA hC hP]
      norm_num [datum_scalar_to_jsvalue, datumGetString, VARCHAROID, TEXTOID,
        OIDOID, BOOLOID, INT2OID, INT4OID, INT8OID, FLOAT4OID, FLOAT8OID,
        NUMERICOID]
    · rw [jsvalue_to_datum_scalar_path cat _ (JSVal.str s) hA hC hP rfl rfl rfl]
      norm_num [jsvalue_scalar_to_datum, jsToString, VARCHAROID, TEXTOID,
        OIDOID, BOOLOID, INT2OID, INT4OID, INT8OID, FLOAT4OID, FLOAT8OID,
        NUMERICOID, VOIDOID]
  | bpchar s =>
    refine ⟨.str s, ?_, rfl, rfl, rfl, ?_⟩
    · rw [datum_to_jsvalue_scalar_path cat _ _ hA hC hP]
      norm_num [datum_scalar_to_jsvalue, datumGetString, BPCHAROID, TEXTOID,
        VARCHAROID, OIDOID, BOOLOID, INT2OID, INT4OID, INT8OID, FLOAT4OID,
        FLOAT8OID, NUMERICOID]
    · rw [jsvalue_to_datum_scalar_path cat _ (JSVal.str s) hA hC hP rfl rfl rfl]
      norm_num [jsvalue_scalar_to_datum, jsToString, BPCHAROID, TEXTOID,
        VARCHAROID, OIDOID, BOOLOID, INT2OID, INT4OID, INT8OID, FLOAT4OID,
        FLOAT8OID, NUMERICOID, VOIDOID]
  | xml s =>
    refine ⟨.str s, ?_, rfl, rfl, rfl, ?_⟩
    · rw [datum_to_jsvalue_scalar_path cat _ _ hA hC hP]
      norm_num [datum_scalar_to_jsvalue, datumGetString, XMLOID, TEXTOID,
        VARCHAROID, BPCHAROID, OIDOID, BOOLOID, INT2OID, INT4OID, INT8OID,
        FLOAT4OID, FLOAT8OID, NUMERICOID]
    · rw [jsvalue_to_datum_scalar_path cat _ (JSVal.str s) hA hC hP rfl rfl rfl]
      norm_num [jsvalue_scalar_to_datum, jsToString, XMLOID, TEXTOID,
        VARCHAROID, BPCHAROID, OIDOID, BOOLOID, INT2OID, INT4OID, INT8OID,
        FLOAT4OID, FLOAT8OID, NUMERICOID, VOIDOID]
  | name s =>
    refine ⟨.str s, ?_, rfl, rfl, rfl, ?_⟩
    · rw [datum_to_jsvalue_scalar_path cat _ _ hA hC hP]
      norm_num [datum_scalar_to_jsvalue, datumGetString, NAMEOID, TEXTOID,
        VARCHAROID, BPCHAROID, XMLOID, OIDOID, BOOLOID, INT2OID, INT4OID,
        INT8OID, FLOAT4OID, FLOAT8OID, NUMERICOID]
    · rw [jsvalue_to_datum_scalar_path cat _ (JSVal.str s) hA hC hP rfl rfl rfl]
      norm_num [jsvalue_scalar_to_datum, jsToString, NAMEOID, TEXTOID,
        VARCHAROID, BPCHAROID, XMLOID, OIDOID, BOOLOID, INT2OID, INT4OID,
        INT8OID, FLOAT4OID, FLOAT8OID, NUMERICOID, VOIDOID]
  | bytea bs h =>
    refine ⟨.str (stringOfBytes bs), ?_, rfl, rfl, rfl, ?_⟩
    · rw [datum_to_jsvalue_scalar_path cat _ _ hA hC hP]
      norm_num [datum_scalar_to_jsvalue, datumGetByteaData, BYTEAOID,
        TEXTOID, VARCHAROID, BPCHAROID, XMLOID, NAMEOID, JSONOID, JSONBOID,
        OIDOID, BOOLOID, INT2OID, INT4OID, INT8OID, FLOAT4OID, FLOAT8OID,
        NUMERICOID]
    · rw [jsvalue_to_datum_scalar_path cat _ (JSVal.str (stringOfBytes bs)) hA hC hP rfl rfl rfl]
      norm_num [jsvalue_scalar_to_datum, jsvalue_to_bytea, BYTEAOID, TEXTOID,
        VARCHAROID, BPCHAROID, XMLOID, NAMEOID, JSONOID, JSONBOID, OIDOID,
        BOOLOID, INT2OID, INT4OID, INT8OID, FLOAT4OID, FLOAT8OID, NUMERICOID,
        VOIDOID]
      rw [h]
  | date dd h1 h2 =>
    refine ⟨.date (((dd + 10957) * 86400000 : Int) : ℚ), ?_, rfl, rfl, rfl, ?_⟩
    · rw [datum_to_jsvalue_scalar_path cat _ _ hA hC hP]
      norm_num [datum_scalar_to_jsvalue, datumGetDate, DATEOID, BYTEAOID,
        TEXTOID, VARCHAROID, BPCHAROID, XMLOID, NAMEOID, JSONOID, JSONBOID,
        OIDOID, BOOLOID, INT2OID, INT4OID, INT8OID, FLOAT4OID, FLOAT8OID,
        NUMERICOID]
      rw [date_to_epoch_exact (by omega) (by omega),
        jsNewDate_int (by omega) (by omega)]
      push_cast
      ring_nf
    · rw [jsvalue_to_datum_scalar_path cat _
        (JSVal.date (((dd + 10957) * 86400000 : Int) : ℚ)) hA hC hP rfl rfl rfl]
      norm_num [jsvalue_scalar_to_datum, DATEOID, BYTEAOID, TEXTOID,
        VARCHAROID, BPCHAROID, XMLOID, NAMEOID, JSONOID, JSONBOID, OIDOID,
        BOOLOID, INT2OID, INT4OID, INT8OID, FLOAT4OID, FLOAT8OID, NUMERICOID,
        VOIDOID]
      rw [show ((dd : ℚ) + 10957) * 86400000 =
        (((dd + 10957) * 86400000 : Int) : ℚ) by push_cast; ring]
      rw [epoch_to_date_exact (by omega) (by omega)]
  | timestamp k h1 h2 =>
    refine ⟨.date ((k + 946684800000 : Int) : ℚ), ?_, rfl, rfl, rfl, ?_⟩
    · rw [datum_to_jsvalue_scalar_path cat _ _ hA hC hP]
      norm_num [datum_scalar_to_jsvalue, datumGetTimestamp, TIMESTAMPOID,
        DATEOID, BYTEAOID, TEXTOID, VARCHAROID, BPCHAROID, XMLOID, NAMEOID,
        JSONOID, JSONBOID, OIDOID, BOOLOID, INT2OID, INT4OID, INT8OID,
        FLOAT4OID, FLOAT8OID, NUMERICOID]
      rw [timestamptz_to_epoch_exact h1 h2,
        jsNewDate_int (by omega) (by omega)]
      push_cast
      ring_nf
    · rw [jsvalue_to_datum_scalar_path cat _
        (JSVal.date ((k + 946684800000 : Int) : ℚ)) hA hC hP rfl rfl rfl]
      norm_num [jsvalue_scalar_to_datum, TIMESTAMPOID, TIMESTAMPTZOID,
        DATEOID, BYTEAOID, TEXTOID, VARCHAROID, BPCHAROID, XMLOID, NAMEOID,
        JSONOID, JSONBOID, OIDOID, BOOLOID, INT2OID, INT4OID, INT8OID,
        FLOAT4OID, FLOAT8OID, NUMERICOID, VOIDOID]
      rw [show (k : ℚ) + 946684800000 =
        ((k + 946684800000 : Int) : ℚ) by push_cast; ring]
      rw [epoch_to_timestamptz_exact (by omega) (by omega)]
  | timestamptz k h1 h2 =>
    refine ⟨.date ((k + 946684800000 : Int) : ℚ), ?_, rfl, rfl, rfl, ?_⟩
    · rw [datum_to_jsvalue_scalar_path cat _ _ hA hC hP]
      norm_num [datum_scalar_to_jsvalue, datumGetTimestamp, TIMESTAMPOID,
        TIMESTAMPTZOID, DATEOID, BYTEAOID, TEXTOID, VARCHAROID, BPCHAROID,
        XMLOID, NAMEOID, JSONOID, JSONBOID, OIDOID, BOOLOID, INT2OID,
        INT4OID, INT8OID, FLOAT4OID, FLOAT8OID, NUMERICOID]
      rw [timestamptz_to_epoch_exact h1 h2,
        jsNewDate_int (by omega) (by omega)]
      push_cast
      ring_nf
    · rw [jsvalue_to_datum_scalar_path cat _
        (JSVal.date ((k + 946684800000 : Int) : ℚ)) hA hC hP rfl rfl rfl]
      norm_num [jsvalue_scalar_to_datum, TIMESTAMPOID, TIMESTAMPTZOID,
        DATEOID, BYTEAOID, TEXTOID, VARCHAROID, BPCHAROID, XMLOID, NAMEOID,
        JSONOID, JSONBOID, OIDOID, BOOLOID, INT2OID, INT4OID, INT8OID,
        FLOAT4OID, FLOAT8OID, NUMERICOID, VOIDOID]
      rw [show (k : ℚ) + 946684800000 =
        ((k + 946684800000 : Int) : ℚ) by push_cast; ring]
      rw [epoch_to_timestamptz_exact (by omega) (by omega)]

/-- A successful lookup means the key occurs among the property names. -/
theorem lookupAssoc_mem {props : List (String × JSVal)} {n : String}
    {v : JSVal} (h : lookupAssoc props n = some v) :
    n ∈ props.map Prod.fst := by
  induction props with
  | nil => cases h
  | cons p rest ih =>
    obtain ⟨m, w⟩ := p
    by_cases hm : m = n
    · subst hm
      simp
    · rw [lookupAssoc, if_neg hm] at h
      simp [ih h]

/-- In a name-keyed correspondence with pairwise-distinct names, every
left element's name looks up its partner. -/
theorem lookupAssoc_of_forall₂
    {R : Attr × Option Datum → String × JSVal → Prop}
    (hname : ∀ p q, R p q → q.1 = p.1.attname) :
    ∀ (pairs : List (Attr × Option Datum)) (props : List (String × JSVal)),
    List.Forall₂ R pairs props → (props.map Prod.fst).Nodup →
    ∀ p ∈ pairs, ∃ v, lookupAssoc props p.1.attname = some v ∧
      R p (p.1.attname, v) := by
  intro pairs props hfa
  induction hfa with
  | nil => intro _ p hp; cases hp
  | cons hpq htail ih =>
    rename_i p₀ q₀ ps qs
    intro hnd p hp
    rw [List.map_cons, List.nodup_cons] at hnd
    rcases List.mem_cons.mp hp with h | h
    · subst h
      refine ⟨q₀.2, ?_, ?_⟩
      · rw [lookupAssoc, if_pos (hname p q₀ hpq)]
      · rw [show (p.1.attname, q₀.2) = q₀ from by
          rw [← hname p q₀ hpq]]
        exact hpq
    · obtain ⟨v, hl, hr⟩ := ih hnd.2 p h
      refine ⟨v, ?_, hr⟩
      rw [lookupAssoc, if_neg ?_]
      · exact hl
      · intro he
        exact hnd.1 (he ▸ lookupAssoc_mem hl)

/-- The record-encoding loop reproduces a field list whose non-dropped
fields are recoverable from the value's like-named properties. -/
theorem encodeRowFields_of_fields (cat : Catalog) (obj : JSVal) :
    ∀ (attrs : List Attr) (fields : List (Option Datum)),
    fields.length = attrs.length →
    (∀ p ∈ attrs.zip fields,
       (p.1.attisdropped = true → p.2 = none) ∧
       (p.1.attisdropped = false → p.2 = none →
          jsIsNull (jsGetProp obj p.1.attname) = true ∨
          jsIsUndefined (jsGetProp obj p.1.attname) = true) ∧
       (p.1.attisdropped = false → ∀ d, p.2 = some d →
          jsIsNull (jsGetProp obj p.1.attname) = false ∧
          jsIsUndefined (jsGetProp obj p.1.attname) = false ∧
          pljs_jsvalue_to_datum cat p.1.atttypid (jsGetProp obj p.1.attname) =
            .ok (some d))) →
    encodeRowFields cat obj attrs = .ok fields := by
  intro attrs
  induction attrs with
  | nil =>
    intro fields hlen _
    cases fields with
    | nil => simp [encodeRowFields]
    | cons f fs => simp at hlen
  | cons a as ih =>
    intro fields hlen hcond
    cases fields with
    | nil => simp at hlen
    | cons f fs =>
      simp only [List.length_cons, Nat.succ.injEq] at hlen
      have hhead := hcond (a, f) (by
        rw [List.zip_cons_cons]
        exact List.mem_cons_self (a, f) (as.zip fs))
      have htail : encodeRowFields cat obj as = .ok fs :=
        ih fs hlen (fun p hp => hcond p (by
          rw [List.zip_cons_cons]
          exact List.mem_cons_of_mem (a, f) hp))
      rw [encodeRowFields.eq_def]
      by_cases hdrop : a.attisdropped = true
      · have hf : f = none := hhead.1 hdrop
        subst hf
        simp only [hdrop, if_true, htail, exceptBind_ok]
        rfl
      · have hdrop' : a.attisdropped = false := by simpa using hdrop
        simp only [hdrop', Bool.false_eq_true, if_false]
        cases f with
        | none =>
          have hno := hhead.2.1 hdrop' rfl
          rw [dif_pos (by rcases hno with h | h <;> simp [h])]
          simp only [htail, exceptBind_ok]
          rfl
        | some d =>
          obtain ⟨hn, hu, henc⟩ := hhead.2.2 hdrop' d rfl
          rw [dif_neg (by simp [hn, hu])]
          simp only [henc, exceptBind_ok, htail]
          rfl

/-- Decoding and re-encoding an array's element list — given each element
round-trips — restores it, order and null positions included. -/
theorem arrayElems_round_trip (cat : Catalog) (E : Oid) :
    ∀ (es : List (Option Datum)),
    (∀ e ∈ es, ∀ d, e = some d →
      ∃ v, pljs_datum_to_jsvalue cat d E false = .ok v ∧
        jsIsNull v = false ∧ jsIsUndefined v = false ∧
        pljs_jsvalue_to_datum cat E v = .ok (some d)) →
    ∃ vs, decodeArrayElems cat E es = .ok vs ∧
      encodeArrayElems cat E vs = .ok es := by
  intro es
  induction es with
  | nil =>
    intro _
    exact ⟨[], by simp [decodeArrayElems], by simp [encodeArrayElems]⟩
  | cons e rest ih =>
    intro hmem
    obtain ⟨vs, hd, he⟩ := ih (fun e' he' =>
      hmem e' (List.mem_cons_of_mem _ he'))
    cases e with
    | none =>
      refine ⟨JSVal.null :: vs, ?_, ?_⟩
      · rw [decodeArrayElems.eq_def]
        simp only [hd, exceptBind_ok]
        rfl
      · rw [encodeArrayElems.eq_def]
        simp only [jsIsNull, if_true, he, exceptBind_ok]
        rfl
    | some d =>
      obtain ⟨v, hv, hvn, hvu, hve⟩ :=
        hmem (some d) (List.mem_cons_self _ _) d rfl
      refine ⟨v :: vs, ?_, ?_⟩
      · rw [decodeArrayElems.eq_def]
        simp only [hv, exceptBind_ok, hd]
        rfl
      · rw [encodeArrayElems.eq_def]
        simp only [hvn, Bool.false_eq_true, if_false, hve, exceptBind_ok, he]
        rfl

/-- The round-trip invariant: every `RoundTrippable` value decodes to a
script value that is neither `null` nor `undefined` and encodes back to
the original datum. -/
theorem roundTrippable_round_trip (cat : Catalog) {t : Oid} {d : Datum}
    (h : RoundTrippable cat t d) :
    ∃ v, pljs_datum_to_jsvalue cat d t false = .ok v ∧
      jsIsNull v = false ∧ jsIsUndefined v = false ∧
      pljs_jsvalue_to_datum cat t v = .ok (some d) := by
  induction h with
  | scalar t d hex hA hC hP =>
    obtain ⟨v, h1, h2, h3, _, h5⟩ := exactScalar_round_trip cat hex hA hC hP
    exact ⟨v, h1, h2, h3, h5⟩
  | array A elems hcatA helem hEj hEjb helems ih =>
    obtain ⟨vs, hdec, henc⟩ :=
      arrayElems_round_trip cat (cat.element A) elems ih
    have hfillA : pljs_type_fill cat A = .ok
        { typid := cat.element A, length := cat.typlen (cat.element A),
          byval := cat.typbyval (cat.element A),
          align := cat.typalign (cat.element A),
          category := TYPCATEGORY_ARRAY,
          is_composite :=
            cat.category (cat.element A) = TYPCATEGORY_COMPOSITE } := by
      simp [pljs_type_fill, hcatA, helem]
    have hbne1 : (cat.element A != JSONOID) = true := by simp [hEj]
    have hbne2 : (cat.element A != JSONBOID) = true := by simp [hEjb]
    refine ⟨.array vs, ?_, rfl, rfl, ?_⟩
    · rw [pljs_datum_to_jsvalue, hfillA, exceptBind_ok]
      rw [if_pos rfl]
      rw [pljs_datum_to_array]
      simp only [hdec, exceptBind_ok]
      rfl
    · rw [pljs_jsvalue_to_datum, hfillA, exceptBind_ok]
      simp only [jsIsArray, hbne1, hbne2, Bool.and_true, Bool.true_and,
        if_true]
      rw [pljs_jsvalue_to_array]
      simp only [henc, exceptBind_ok]
      rfl
  | record R td fields hcatC hrt hnodup hlenf hdropped hfields ih =>
    have hfillR : pljs_type_fill cat R = .ok
        { typid := R, length := cat.typlen R, byval := cat.typbyval R,
          align := cat.typalign R, category := TYPCATEGORY_COMPOSITE,
          is_composite := true } := by
      simp [pljs_type_fill, hcatC]
      intro hfalse
      exact absurd hfalse (by decide)
    have hdec0 : ∀ p ∈ td.attrs.zip fields, p.1.attisdropped = false →
        ∀ d, p.2 = some d →
        ∃ v, pljs_datum_to_jsvalue cat d p.1.atttypid false = .ok v := by
      intro p hp hdrop d hd
      obtain ⟨v, hv, _⟩ := ih p hp hdrop d hd
      exact ⟨v, hv⟩
    obtain ⟨props, hrec, hnames, hfa⟩ :=
      decodeRowProps_spec cat td.attrs fields hlenf hdec0
    have hnodup' : (props.map Prod.fst).Nodup := by
      rw [hnames]
      exact hnodup
    have hbuild : buildObject props = props := buildObject_eq_self props hnodup'
    have hlookup := lookupAssoc_of_forall₂ (fun p q hq => hq.1)
      ((td.attrs.zip fields).filter (fun p => !p.1.attisdropped)) props
      hfa hnodup'
    have hcond : ∀ p ∈ td.attrs.zip fields,
        (p.1.attisdropped = true → p.2 = none) ∧
        (p.1.attisdropped = false → p.2 = none →
          jsIsNull (jsGetProp (.object props) p.1.attname) = true ∨
          jsIsUndefined (jsGetProp (.object props) p.1.attname) = true) ∧
        (p.1.attisdropped = false → ∀ d, p.2 = some d →
          jsIsNull (jsGetProp (.object props) p.1.attname) = false ∧
          jsIsUndefined (jsGetProp (.object props) p.1.attname) = false ∧
          pljs_jsvalue_to_datum cat p.1.atttypid
            (jsGetProp (.object props) p.1.attname) = .ok (some d)) := by
      intro p hp
      refine ⟨fun hdrop => hdropped p hp hdrop, ?_, ?_⟩
      · intro hdrop hnone
        obtain ⟨v, hl, hR⟩ := hlookup p
          (List.mem_filter.mpr ⟨hp, by simp [hdrop]⟩)
        have hg : jsGetProp (.object props) p.1.attname = v := by
          simp [jsGetProp, hl]
        rw [hg]
        left
        rw [show v = JSVal.null from hR.2.1 hnone]
        rfl
      · intro hdrop d hd
        obtain ⟨v, hl, hR⟩ := hlookup p
          (List.mem_filter.mpr ⟨hp, by simp [hdrop]⟩)
        have hg : jsGetProp (.object props) p.1.attname = v := by
          simp [jsGetProp, hl]
        obtain ⟨v', hv', hn', hu', he'⟩ := ih p hp hdrop d hd
        have hvv : v = v' := by
          have hthis := hR.2.2 d hd
          rw [hv'] at hthis
          exact (Except.ok.inj hthis).symm
        rw [hg, hvv]
        exact ⟨hn', hu', he'⟩
    have hencf : encodeRowFields cat (.object props) td.attrs = .ok fields :=
      encodeRowFields_of_fields cat (.object props) td.attrs fields hlenf hcond
    refine ⟨.object props, ?_, rfl, rfl, ?_⟩
    · rw [pljs_datum_to_jsvalue, hfillR, exceptBind_ok]
      simp +decide [TYPCATEGORY_COMPOSITE, TYPCATEGORY_ARRAY,
        pljs_datum_to_object, hrec, hbuild]
    · rw [pljs_jsvalue_to_datum, hfillR, exceptBind_ok]
      simp +decide [jsIsArray, jsIsNull, jsIsUndefined,
        TYPCATEGORY_COMPOSITE, TYPCATEGORY_ARRAY, pljs_jsvalue_to_record,
        hrt, hencf]

/-- fl(1/1000): the decimal fraction is not dyadic and rounds up by one
unit in the 62nd fractional bit. -/
theorem rd_ts_div : roundDouble ((1 : ℚ) / 1000) =
    4611686018427388 / 2 ^ 62 := by
  have hq : ((1 : ℚ) / 1000) ≠ 0 := by norm_num
  have he : expOf ((1 : ℚ) / 1000) = -10 := by
    apply expOf_eq hq <;> rw [abs_of_pos (by norm_num)] <;> norm_num
  rw [roundDouble_eq_mul 62 hq (by rw [he]; norm_num) (by norm_num)]
  have hf : ⌊(1 : ℚ) / 1000 * 2 ^ 62⌋ = 4611686018427387 := by
    rw [Int.floor_eq_iff]
    constructor <;> norm_num
  rw [rne_of_gt hf (by push_cast; norm_num)]
  push_cast
  norm_num

/-- fl(fl(1/1000) + offset): at the offset's binade the millisecond
fraction collapses to 8 units in the last place. -/
theorem rd_ts_add : roundDouble ((4611686018427388 : ℚ) / 2 ^ 62 +
    epochOffsetMs) = 7755241881600008 / 2 ^ 13 := by
  have hq : ((4611686018427388 : ℚ) / 2 ^ 62 + epochOffsetMs) ≠ 0 := by
    rw [epochOffsetMs]
    norm_num
  have he : expOf ((4611686018427388 : ℚ) / 2 ^ 62 + epochOffsetMs) = 39 := by
    apply expOf_eq hq <;> rw [epochOffsetMs] <;>
      rw [abs_of_pos (by norm_num)] <;> norm_num
  rw [roundDouble_eq_mul 13 hq (by rw [he]; norm_num) (by norm_num)]
  have hf : ⌊((4611686018427388 : ℚ) / 2 ^ 62 + epochOffsetMs) * 2 ^ 13⌋ =
      7755241881600008 := by
    rw [Int.floor_eq_iff]
    rw [epochOffsetMs]
    constructor <;> norm_num
  rw [rne_of_lt hf (by rw [epochOffsetMs]; push_cast; norm_num)]
  norm_num

/-- The decoded epoch of the timestamp 1 µs, before the `Date` clip:
`946684800000 + 8/8192` ms. -/
theorem ts1_decode : timestamptz_to_epoch 1 = 7755241881600008 / 2 ^ 13 := by
  rw [timestamptz_to_epoch]
  rw [show ((1 : ℤ) : ℚ) = ((1 : ℤ) : ℚ) * 2 ^ (0:ℕ) by norm_num]
  rw [roundDouble_dyadic 0 (by norm_num)]
  rw [show ((1 : ℤ) : ℚ) * 2 ^ (0:ℕ) / 1000 = (1 : ℚ) / 1000 by norm_num]
  rw [rd_ts_div, rd_ts_add]

/-- The `Date` stores the truncated whole millisecond. -/
theorem ts1_clip : truncQ ((7755241881600008 : ℚ) / 2 ^ 13) =
    946684800000 := by
  rw [truncQ, if_pos (by positivity)]
  rw [Int.floor_eq_iff]
  constructor <;> norm_num

/-- Re-encoding the clipped epoch gives the timestamp 0. -/
theorem ts1_encode : epoch_to_timestamptz ((946684800000 : ℚ)) = 0 := by
  rw [epoch_to_timestamptz, epochOffsetMs]
  rw [show (946684800000 : ℚ) - 10957 * 86400000 = 0 by norm_num]
  rw [roundDouble_zero]
  rw [show (0 : ℚ) = ((0 : ℤ) : ℚ) by norm_num, truncQ_intCast]
  ring

/-- C1 counterexample: the timestamp `1` (one microsecond past the
PostgreSQL epoch) — a scalar of the datetime category, not a decimal or a
float — does not survive the round trip: the decoder divides the
microsecond count by 1000 and `JS_NewDate` truncates the resulting epoch
to the whole millisecond `946684800000`, which re-encodes to the timestamp
`0`, not `1`. -/
theorem timestamp_round_trip_loses_microseconds :
    pljs_datum_to_jsvalue stdCatalog (Datum.timestamp 1) TIMESTAMPTZOID
      false = .ok (JSVal.date 946684800000) ∧
    pljs_jsvalue_to_datum stdCatalog TIMESTAMPTZOID
      (JSVal.date 946684800000) = .ok (some (Datum.timestamp 0)) ∧
    Datum.timestamp 0 ≠ Datum.timestamp 1 := by
  refine ⟨?_, ?_, by simp⟩
  · rw [datum_to_jsvalue_scalar_path stdCatalog _ _ (by decide) (by decide)
      (by decide)]
    norm_num [datum_scalar_to_jsvalue, datumGetTimestamp, TIMESTAMPTZOID,
      TIMESTAMPOID, DATEOID, BYTEAOID, TEXTOID, VARCHAROID, BPCHAROID,
      XMLOID, NAMEOID, JSONOID, JSONBOID, OIDOID, BOOLOID, INT2OID, INT4OID,
      INT8OID, FLOAT4OID, FLOAT8OID, NUMERICOID]
    rw [ts1_decode, jsNewDate, if_pos (by constructor <;> norm_num),
      ts1_clip]
    norm_num
  · rw [jsvalue_to_datum_scalar_path stdCatalog _
      (JSVal.date 946684800000) (by decide) (by decide)
      (by decide) rfl rfl rfl]
    norm_num [jsvalue_scalar_to_datum, TIMESTAMPTZOID,
      TIMESTAMPOID, DATEOID, BYTEAOID, TEXTOID, VARCHAROID, BPCHAROID,
      XMLOID, NAMEOID, JSONOID, JSONBOID, OIDOID, BOOLOID, INT2OID, INT4OID,
      INT8OID, FLOAT4OID, FLOAT8OID, NUMERICOID, VOIDOID]
    rw [ts1_encode]

/-- C1 (amended): decoding with `pljs_datum_to_jsvalue` and re-encoding
with `pljs_jsvalue_to_datum` at the same type id is the identity for
booleans, in-range 16/32/64-bit integers, oids, the text-like strings,
byte blobs whose bytes survive the engine's UTF-8 string conversion,
dates within the ECMAScript `Date` range, and whole-millisecond
timestamps within ±72057594037927 ms of the epoch, and — element order,
null positions and all non-dropped columns included — for arrays and
composites built from such values; a timestamp with sub-millisecond
microseconds, however, comes back truncated to the whole millisecond
(see the counterexample), and dates, timestamps and byte blobs outside
the listed ranges are subject to double rounding, the `Date` clip, or
UTF-8 replacement. -/
theorem marshal_round_trip (cat : Catalog) (t : Oid) (d : Datum)
    (h : RoundTrippable cat t d) :
    ∃ v, pljs_datum_to_jsvalue cat d t false = .ok v ∧
      pljs_jsvalue_to_datum cat t v = .ok (some d) := by
  obtain ⟨v, h1, _, _, h4⟩ := roundTrippable_round_trip cat h
  exact ⟨v, h1, h4⟩

/-- C1 witness: a concrete `int4[]` array (with a null element) and a
concrete whole-millisecond timestamp survive the round trip at the stock
catalog. -/
theorem marshal_round_trip_witness :
    (∃ v, pljs_datum_to_jsvalue stdCatalog
        (.array [some (.int32 5), none]) 1007 false = .ok v ∧
      pljs_jsvalue_to_datum stdCatalog 1007 v =
        .ok (some (.array [some (.int32 5), none])))
  ∧ (∃ v, pljs_datum_to_jsvalue stdCatalog (.timestamp (1000 * 2))
        TIMESTAMPTZOID false = .ok v ∧
      pljs_jsvalue_to_datum stdCatalog TIMESTAMPTZOID v =
        .ok (some (.timestamp (1000 * 2)))) := by
  constructor
  · refine marshal_round_trip stdCatalog 1007 (.array [some (.int32 5), none])
      (RoundTrippable.array 1007 _ (by decide) (by decide) (by decide)
        (by decide) ?_)
    intro e he d hd
    simp at he
    rcases he with he | he
    · rw [he] at hd
      cases hd
      exact RoundTrippable.scalar _ _
        (ExactScalar.int4 5 (by norm_num) (by norm_num))
        (by decide) (by decide) (by decide)
    · rw [he] at hd
      cases hd
  · exact marshal_round_trip stdCatalog TIMESTAMPTZOID
      (.timestamp (1000 * 2))
      (RoundTrippable.scalar _ _
        (ExactScalar.timestamptz 2 (by norm_num) (by norm_num))
        (by decide) (by decide) (by decide))

/-- C9: the copy loop of the 4-byte typed-view branch of the `bytea`
encoder iterates `4 × length` times — for a one-element `Uint32Array` it
uses the indices 0,1,2,3, so it does NOT keep every index below the view's
element count: indices 1–3 read past the view and write past the
one-slot element buffer. -/
theorem u32_copy_loop_out_of_bounds :
    (u32CopyIndices 1).length = 4 ∧ ¬(∀ i ∈ u32CopyIndices 1, i < 1) := by
  constructor
  · decide
  · intro h
    have := h 3 (by decide)
    omega

end PLJS
